import Mathlib

/-!
Shallow embedding of the DatAlive query-orchestration-and-caching layer.

Sources embedded here:
- `src/agents/src/agents/unified_agent.py` (`UnifiedAgent`: `process_query`,
  `_check_cache`, `_combine_results`, `_update_cache`, `_calculate_confidence`,
  `_determine_query_type`);
- `src/agents/src/agents/orchestrator.py` (`OrchestratorAgent`:
  `analyze_query`, `_parse_strategy`, `generate_answer`);
- `src/datalive_agent/src/agents/cag_agent.py` (`CAGAgent`: `check_cache`,
  `update_cache`, `_generate_cache_keys`, `_store_semantic_cache`,
  `_find_similar_cached_query`, `_get_semantic_hash`, `_hash_text`,
  `_is_fresh`, `_cosine_similarity`, `invalidate_cache_pattern`);
- `src/datalive_agent/src/config/settings.py` (cache TTL table).

Modelling conventions:
- Machine floats (scores, confidences) are modelled as exact rationals;
  timestamps and TTLs are integer seconds (every TTL in `settings.py` is an
  `int`, so all freshness comparisons keep their order structure); the
  ISO-format round trip of `cached_at` through JSON is the identity in the
  model.
- Redis is an association list from key strings to values with an absolute
  expiry time; `setex` overwrites, `get` hides expired entries, `keys`
  lists live keys matching a glob pattern.
- The md5 hex digest `_hash_text` is modelled as an injective function of the
  text; no property below depends on digest collisions, and the generated
  cache keys already differ in their literal namespace markers
  ("exact:", "normalized:", "user:", "session:", "semantic:",
  "semantic_embeddings:") before any digest characters.
- Collaborator calls (LLM completion, embedding service, vector search,
  graph driver) are inputs of type `Except Unit α`: `.error` models the call
  raising, `.ok` a successful reply.
- Cosine similarity is real-valued (`Real.sqrt` for the numpy norms), so the
  similarity-scan definitions are noncomputable; every other definition is
  executable.
-/

namespace DatAlive

/-! ## JSON-ish Python values (used where the code manipulates raw dicts) -/

/-- A Python/JSON value, used to model dict literals and `json.loads` output.
`nonfinite` holds the non-finite floats `json.loads` produces for the
`Infinity`, `-Infinity` and `NaN` tokens (accepted by its default
`parse_constant`); they are not representable as rationals and every consumer
below treats them as an unexpected type. -/
inductive JVal where
  | null : JVal
  | jbool : Bool → JVal
  | num : ℚ → JVal
  | nonfinite : String → JVal
  | str : String → JVal
  | arr : List JVal → JVal
  | obj : List (String × JVal) → JVal

/-- Dictionary lookup, `d.get(k)`: the last binding wins, as for duplicate
keys in `json.loads` and for Python dict literals. -/
def jlookup (entries : List (String × JVal)) (key : String) : Option JVal :=
  match entries with
  | [] => none
  | (k, v) :: rest =>
    match jlookup rest key with
    | some w => some w
    | none => if k = key then some v else none

/-! ## Cache data model (`cag_agent.py`) -/

/-- The `user_context` dict passed by `UnifiedAgent._check_cache` /
`_update_cache`: keys `user_id` and `session_id`, either possibly `None`. -/
structure UserCtx where
  user_id : Option String
  session_id : Option String
deriving DecidableEq, Repr

/-- A relationship item extracted by the KAG agent
(`analyze_relationships` output element). -/
structure Relationship where
  source : String
  target : String
  rtype : String
deriving DecidableEq, Repr

/-- One timeline event from `temporal_search`. -/
structure TimelineEvent where
  date : String
  description : String
  entities : List String
deriving DecidableEq, Repr

/-- One row of `RAGAgent.search` output (`results` element). -/
structure RagRow where
  content : String
  score : ℚ
  document_title : String
deriving DecidableEq, Repr

/-- `RAGAgent.search` result shape (the fields the orchestration layer reads). -/
structure RagData where
  results : List RagRow
deriving DecidableEq, Repr

/-- `KAGAgent.analyze_relationships` result shape. -/
structure KagData where
  relationships : List Relationship
  insights : List String
deriving DecidableEq, Repr

/-- `KAGAgent.temporal_search` result shape. -/
structure TemporalData where
  timeline : List TimelineEvent
deriving DecidableEq, Repr

/-- An element of the combined `sources` list built by
`UnifiedAgent._combine_results`; the constructor is the `type` tag of the
Python dict, and the redundant `source` field is implied by it. -/
inductive SourceItem where
  | document (title : String) (content : String) (score : ℚ)
  | relationship (entities : List String) (rel : String)
  | temporal (date : String) (event : String) (entities : List String)
deriving DecidableEq, Repr

/-- The `result` dict stored by `UnifiedAgent._update_cache`:
`{'answer', 'sources', 'confidence', 'strategy_used', 'metadata'}`. -/
structure ResultPayload where
  answer : String
  sources : List SourceItem
  confidence : ℚ
  strategy_used : List String
  metadata : Option JVal

/-- The `cache_data` dict built in `CAGAgent.update_cache`:
`{'query', 'result', 'user_context', 'query_type', 'cached_at',
'confidence', 'ttl'}`.  `confidence` is `result.get('confidence', 0.5)`
evaluated at store time; `ttl` is fixed from the TTL table at store time. -/
structure CacheData where
  query : String
  result : ResultPayload
  user_context : Option UserCtx
  query_type : String
  cached_at : ℤ
  confidence : ℚ
  ttl : ℤ

/-- The `semantic_data` dict stored by `CAGAgent._store_semantic_cache`:
`{'query', 'embedding', 'cache_data', 'created_at'}`. -/
structure SemanticData where
  query : String
  embedding : List ℚ
  cache_data : CacheData
  created_at : ℤ

/-- A Redis value: either a serialized `cache_data` record or a serialized
`semantic_data` record (JSON round trips are identities in the model). -/
inductive StoreVal where
  | cacheVal (d : CacheData)
  | semVal (s : SemanticData)

/-- A stored Redis entry together with its absolute expiry instant
(`setex` at time `t` with TTL `n` sets `expireAt = t + n`).  Times are
modelled as integer seconds: every TTL in `settings.py` is an `int`, so the
order structure of all freshness comparisons is unchanged. -/
structure StoreEntry where
  val : StoreVal
  expireAt : ℤ

/-- The Redis keyspace: an association list without duplicate keys
(`redisSet` overwrites). -/
abbrev Store := List (String × StoreEntry)

/-- `redis.setex key ttl value` at absolute time `now`. -/
def redisSet (store : Store) (key : String) (v : StoreVal) (expireAt : ℤ) : Store :=
  (key, ⟨v, expireAt⟩) :: store.filter (fun e => e.1 ≠ key)

/-- `redis.get key` at absolute time `now`: expired entries are invisible. -/
def redisGet (now : ℤ) (store : Store) (key : String) : Option StoreVal :=
  match store.find? (fun e => e.1 = key) with
  | some (_, e) => if now < e.expireAt then some e.val else none
  | none => none

/-- `redis.delete key`. -/
def redisDelete (store : Store) (key : String) : Store :=
  store.filter (fun e => e.1 ≠ key)

/-- Fuel-bounded glob matcher (structurally recursive so that it evaluates;
every recursive call shrinks `pattern.length + subject.length`, so the fuel
passed by `globMatch` is never exhausted). -/
def globMatchFuel : ℕ → List Char → List Char → Bool
  | 0, _, _ => false
  | _ + 1, [], [] => true
  | _ + 1, [], _ :: _ => false
  | f + 1, '*' :: ps, s =>
    globMatchFuel f ps s ||
      (match s with
       | [] => false
       | _ :: s' => globMatchFuel f ('*' :: ps) s')
  | f + 1, '?' :: ps, _ :: s => globMatchFuel f ps s
  | _ + 1, '?' :: _, [] => false
  | f + 1, c :: ps, d :: s => c = d && globMatchFuel f ps s
  | _ + 1, _ :: _, [] => false

/-- Glob matching for `redis.keys(pattern)`: `*` matches any sequence,
`?` any single character, other characters literally (the `[...]` class
syntax of Redis is not used by this repository and is not modelled). -/
def globMatch (p s : List Char) : Bool :=
  globMatchFuel (p.length + s.length + 1) p s

/-- String-level wrapper for `globMatch`. -/
def globMatchStr (pattern key : String) : Bool :=
  globMatch pattern.data key.data

/-- `redis.keys(pattern)`: the live keys matching the glob pattern, in
store order. -/
def redisKeys (now : ℤ) (store : Store) (pattern : String) : List String :=
  (store.filter (fun e => globMatchStr pattern e.1 && decide (now < e.2.expireAt))).map
    (fun e => e.1)

/-! ## Cache key generation (`CAGAgent._hash_text`, `_get_semantic_hash`,
`_generate_cache_keys`) -/

/-- `CAGAgent._hash_text`: `hashlib.md5(text.encode()).hexdigest()`, modelled
as an injective digest of the text.  Nothing below depends on md5 collisions;
key distinctness always comes from the literal namespace markers in front of
the digest. -/
def hash_text (text : String) : String :=
  text

/-- ASCII `str.lower()`. -/
def asciiLower (s : String) : String :=
  ⟨s.data.map Char.toLower⟩

/-- Python's `str.strip()`: drop leading and trailing whitespace. -/
def pyStrip (s : String) : String :=
  ⟨((s.data.dropWhile Char.isWhitespace).reverse.dropWhile Char.isWhitespace).reverse⟩

/-- A `\w` word character of the Python `re` module (ASCII view). -/
def isWordChar (c : Char) : Bool :=
  c.isAlphanum || c = '_'

/-- Helper for `findall_words`: the accumulator holds the current word run,
reversed. -/
def splitWordsAux : List Char → List Char → List String
  | [], acc => if acc.isEmpty then [] else [⟨acc.reverse⟩]
  | c :: rest, acc =>
    if isWordChar c then splitWordsAux rest (c :: acc)
    else (if acc.isEmpty then [] else [⟨acc.reverse⟩]) ++ splitWordsAux rest []

/-- The maximal runs of word characters of a string, in order:
Python's `re.findall(r'\b\w+\b', text)`. -/
def findall_words (s : String) : List String :=
  splitWordsAux s.data []

/-- The stop-word set of `CAGAgent._get_semantic_hash`. -/
def stop_words : List String :=
  ["a", "an", "and", "are", "as", "at", "be", "by", "for", "from",
   "has", "he", "in", "is", "it", "its", "of", "on", "that", "the",
   "to", "was", "will", "with", "what", "how", "when", "where", "who"]

/-- Code-point lexicographic comparison on character lists. -/
def charListLe : List Char → List Char → Bool
  | [], _ => true
  | _ :: _, [] => false
  | a :: as, b :: bs =>
    if a.toNat < b.toNat then true
    else if b.toNat < a.toNat then false
    else charListLe as bs

/-- Total order used by Python's `list.sort()` on strings (code-point
lexicographic). -/
def strLe (a b : String) : Bool :=
  charListLe a.data b.data

/-- Insert into a sorted list (stable; duplicates are identical strings, so
stability is immaterial). -/
def insertSorted (x : String) : List String → List String
  | [] => [x]
  | y :: ys => if strLe x y then x :: y :: ys else y :: insertSorted x ys

/-- Ascending sort, `meaningful_words.sort()`. -/
def sortStrings : List String → List String
  | [] => []
  | x :: xs => insertSorted x (sortStrings xs)

/-- `CAGAgent._get_semantic_hash`: keep words longer than 3 characters that
are not stop words, sort, join the first 10 with spaces, and hash; `None`
when no meaningful word remains.  (Its `try/except` has no failing operation
in the model.) -/
def get_semantic_hash (text : String) : Option String :=
  let words := findall_words (asciiLower text)
  let meaningful := words.filter (fun w => decide (w.length > 3) && !(stop_words.contains w))
  if meaningful.isEmpty then none
  else some (hash_text (String.intercalate " " ((sortStrings meaningful).take 10)))

/-- Python truthiness of an optional string (`None` and `""` are falsy), as
used in `if user_context and user_context.get('user_id')`. -/
def strTruthy : Option String → Bool
  | none => false
  | some s => !(s = "")

/-- `CAGAgent._generate_cache_keys`: the ordered candidate key list
(exact, normalized, user-scoped, session-scoped, semantic). -/
def generate_cache_keys (query : String) (ctx : Option UserCtx) : List String :=
  ["exact:" ++ hash_text query,
   "normalized:" ++ hash_text (pyStrip (asciiLower query))]
  ++ (match ctx with
      | some uc =>
        (match uc.user_id with
         | some u => if strTruthy (some u) then ["user:" ++ u ++ ":" ++ hash_text query] else []
         | none => [])
      | none => [])
  ++ (match ctx with
      | some uc =>
        (match uc.session_id with
         | some s => if strTruthy (some s) then ["session:" ++ s ++ ":" ++ hash_text query] else []
         | none => [])
      | none => [])
  ++ (match get_semantic_hash query with
      | some h => ["semantic:" ++ h]
      | none => [])

/-! ## TTL configuration (`settings.py` / `CAGAgent.__init__`) -/

/-- The four configurable TTL tiers (`cache_ttl_factual` etc.); the
constructor defaults are the `settings.py` defaults (the later `Field`
declarations in the class body override the earlier plain ones). -/
structure CacheCfg where
  factual : ℤ := 3600
  analytical : ℤ := 1800
  temporal : ℤ := 900
  personal : ℤ := 300

/-- `self.cache_ttl.get(query_type, self.cache_ttl['general'])` where the
table is `{'factual', 'analytical', 'temporal', 'personal',
'general': factual}`. -/
def ttl_for (cfg : CacheCfg) (query_type : String) : ℤ :=
  if query_type = "factual" then cfg.factual
  else if query_type = "analytical" then cfg.analytical
  else if query_type = "temporal" then cfg.temporal
  else if query_type = "personal" then cfg.personal
  else cfg.factual

/-! ## Freshness and writes (`CAGAgent._is_fresh`, `update_cache`,
`_store_semantic_cache`) -/

/-- `CAGAgent._is_fresh`: age strictly below the TTL stored in the record.
The configuration argument mirrors `self.cache_ttl['general']`, which is only
the fallback for records missing the `ttl` key; every record written by
`update_cache` carries one, so the configuration is never consulted. -/
def is_fresh (_cfg : CacheCfg) (now : ℤ) (d : CacheData) : Bool :=
  decide (now - d.cached_at < d.ttl)

/-- The `cache_data` dict literal of `CAGAgent.update_cache`
(`confidence` is `result.get('confidence', 0.5)`; the payload always carries
the field in this model). -/
def mkCacheData (cfg : CacheCfg) (now : ℤ) (query : String) (result : ResultPayload)
    (ctx : Option UserCtx) (query_type : String) : CacheData :=
  { query := query
    result := result
    user_context := ctx
    query_type := query_type
    cached_at := now
    confidence := result.confidence
    ttl := ttl_for cfg query_type }

/-- `CAGAgent._store_semantic_cache`: index the query embedding under
`semantic_embeddings:<hash>` with the *analytical* TTL, whatever the record's
own query type; an embedding-collaborator failure is caught and skips the
write. -/
def store_semantic_cache (cfg : CacheCfg) (now : ℤ) (store : Store) (query : String)
    (cache_data : CacheData) (embedO : Except Unit (List ℚ)) : Store :=
  match embedO with
  | .error _ => store
  | .ok emb =>
    redisSet store ("semantic_embeddings:" ++ hash_text query)
      (.semVal ⟨query, emb, cache_data, now⟩) (now + cfg.analytical)

/-- `CAGAgent.update_cache`: write the same `cache_data` under every
generated key with the per-`query_type` TTL, then index the embedding. -/
def update_cache (cfg : CacheCfg) (now : ℤ) (store : Store) (query : String)
    (result : ResultPayload) (ctx : Option UserCtx) (query_type : String)
    (embedO : Except Unit (List ℚ)) : Store :=
  let cache_data := mkCacheData cfg now query result ctx query_type
  let keys := generate_cache_keys query ctx
  let ttl := ttl_for cfg query_type
  let store1 := keys.foldl (fun s k => redisSet s k (.cacheVal cache_data) (now + ttl)) store
  store_semantic_cache cfg now store1 query cache_data embedO

/-! ## Cosine similarity and the similarity fallback
(`CAGAgent._cosine_similarity`, `_find_similar_cached_query`) -/

/-- `np.dot` of the two vectors (ℚ entries; mismatched lengths raise in
numpy, handled in `cosine_similarity`). -/
def dotQ (v1 v2 : List ℚ) : ℚ :=
  (List.zipWith (fun a b => a * b) v1 v2).sum

/-- Sum of squares (`np.linalg.norm` squared). -/
def sumSq (v : List ℚ) : ℚ :=
  (v.map (fun x => x * x)).sum

open Classical in
/-- `CAGAgent._cosine_similarity`: `dot/(‖v1‖·‖v2‖)`, `0.0` when either norm
is zero; a shape mismatch raises in numpy and the `except` returns `0.0`. -/
noncomputable def cosine_similarity (v1 v2 : List ℚ) : ℝ :=
  if v1.length ≠ v2.length then 0
  else
    let n1 : ℝ := Real.sqrt ((sumSq v1 : ℚ) : ℝ)
    let n2 : ℝ := Real.sqrt ((sumSq v2 : ℚ) : ℝ)
    if n1 = 0 ∨ n2 = 0 then 0
    else ((dotQ v1 v2 : ℚ) : ℝ) / (n1 * n2)

/-- The annotated best match returned by `_find_similar_cached_query`:
`cache_data` plus `similarity_score` and `original_query`. -/
structure SimResult where
  data : CacheData
  similarity_score : ℝ
  original_query : String

open Classical in
/-- The scan loop of `_find_similar_cached_query`: running best match and
best similarity, updated when `similarity > threshold` and
`similarity > best_similarity`. -/
noncomputable def find_similar_scan (qEmb : List ℚ) (threshold : ℝ) :
    List SemanticData → Option SimResult → ℝ → Option SimResult
  | [], best, _ => best
  | e :: rest, best, bestSim =>
    let sim := cosine_similarity qEmb e.embedding
    if sim > threshold ∧ sim > bestSim then
      find_similar_scan qEmb threshold rest (some ⟨e.cache_data, sim, e.query⟩) sim
    else
      find_similar_scan qEmb threshold rest best bestSim

/-- The scanned sample: `redis.keys("semantic_embeddings:*")`, capped to the
first 50 keys, each fetched again; entries that are not semantic records are
skipped (their field accesses raise and the inner `except` continues). -/
def scan_semantic (now : ℤ) (store : Store) : List SemanticData :=
  ((redisKeys now store "semantic_embeddings:*").take 50).filterMap
    (fun k =>
      match redisGet now store k with
      | some (.semVal s) => some s
      | _ => none)

/-- `CAGAgent._find_similar_cached_query`: embed the query (a failure is
caught and yields `None`), scan the sample, return the best match above the
threshold. -/
noncomputable def find_similar_cached_query (now : ℤ) (store : Store)
    (qEmbO : Except Unit (List ℚ)) (threshold : ℝ) : Option SimResult :=
  match qEmbO with
  | .error _ => none
  | .ok qEmb => find_similar_scan qEmb threshold (scan_semantic now store) none 0

/-! ## Lookup (`CAGAgent.check_cache`) -/

/-- The probing loop of `check_cache`: get each key in order; a fresh record
is returned with its matching key; a stale record (or a record whose
`cached_at` field is missing, e.g. a semantic entry, for which `_is_fresh`
returns `False` via its `except`) has its key deleted and probing continues. -/
def probe_keys (cfg : CacheCfg) (now : ℤ) : List String → Store → Option (CacheData × String) × Store
  | [], store => (none, store)
  | k :: ks, store =>
    match redisGet now store k with
    | some (.cacheVal d) =>
      if is_fresh cfg now d then (some (d, k), store)
      else probe_keys cfg now ks (redisDelete store k)
    | some (.semVal _) => probe_keys cfg now ks (redisDelete store k)
    | none => probe_keys cfg now ks store

/-- The value returned by `check_cache`: the cached dict, annotated either
with `cache_key` (key probe hit) or with `similarity_score` and
`original_query` (similarity fallback hit). -/
inductive CacheHit where
  | keyHit (d : CacheData) (cache_key : String)
  | simHit (d : CacheData) (similarity_score : ℝ) (original_query : String)

/-- `CAGAgent.check_cache`: probe the candidate keys in order, then fall back
to the similarity search (threshold 0.85, its Python default).  Also returns
the store as mutated by stale-key deletion. -/
noncomputable def check_cache (cfg : CacheCfg) (now : ℤ) (store : Store) (query : String)
    (ctx : Option UserCtx) (qEmbO : Except Unit (List ℚ)) : Option CacheHit × Store :=
  let keys := generate_cache_keys query ctx
  let probed := probe_keys cfg now keys store
  match probed.1 with
  | some (d, k) => (some (.keyHit d k), probed.2)
  | none =>
    match find_similar_cached_query now probed.2 qEmbO 0.85 with
    | some r => (some (.simHit r.data r.similarity_score r.original_query), probed.2)
    | none => (none, probed.2)

/-! ## Invalidation (`CAGAgent.invalidate_cache_pattern`) -/

/-- `CAGAgent.invalidate_cache_pattern`: delete every live key matching the
glob pattern.  The second component is the Python return value: the function
body has no `return` statement, so it returns `None` (the count is only
logged); a count-returning implementation would yield `some n`. -/
def invalidate_cache_pattern (now : ℤ) (store : Store) (pattern : String) :
    Store × Option ℕ :=
  let keys := redisKeys now store pattern
  let store' := if keys.isEmpty then store else keys.foldl redisDelete store
  (store', none)

/-! ## JSON parsing (`json.loads` as used by `OrchestratorAgent._parse_strategy`)

A recursive-descent parser over the character list, fuel-bounded for
termination (the fuel passed at top level is ample: every recursive call of
the mutual block consumes at least one input character, so a parse failure
means `json.loads` raises).  It follows the `json` module's default, strict
decoder: numbers follow the grammar `-?(0|[1-9][0-9]*)(\.[0-9]+)?
([eE][+-]?[0-9]+)?` (exponents included; a `0` integer part stands alone,
as in the scanner's regex, so the trailing digits of `01` fail at the
structural level exactly as in Python); the `Infinity`, `-Infinity` and
`NaN` constants are accepted; strings support the `\" \\ \/ \b \f \n \r \t`
and `\uXXXX` escapes with surrogate-pair combination, and reject unescaped
control characters (`strict=True`).  A lone surrogate, which Python keeps as
an unpaired UTF-16 code unit, has no Lean `Char` and is parsed (as in
Python) but mapped to the null character; no result below reads such a
string's contents. -/

/-- Skip JSON whitespace. -/
def skipWs : List Char → List Char
  | c :: rest =>
    if c = ' ' || c = '\t' || c = '\n' || c = '\r' then skipWs rest else c :: rest
  | [] => []

/-- The value of one hex digit. -/
def hexVal (c : Char) : Option ℕ :=
  if '0' ≤ c ∧ c ≤ '9' then some (c.toNat - 48)
  else if 'a' ≤ c ∧ c ≤ 'f' then some (c.toNat - 87)
  else if 'A' ≤ c ∧ c ≤ 'F' then some (c.toNat - 55)
  else none

/-- Four hex digits (`\uXXXX`) and the rest of the input. -/
def hex4 : List Char → Option (ℕ × List Char)
  | a :: b :: c :: d :: r =>
    match hexVal a, hexVal b, hexVal c, hexVal d with
    | some x, some y, some z, some w => some (((x * 16 + y) * 16 + z) * 16 + w, r)
    | _, _, _, _ => none
  | _ => none

/-- Parse the rest of a JSON string literal (after the opening quote). -/
def parseStringBody : ℕ → List Char → List Char → Option (String × List Char)
  | 0, _, _ => none
  | _, [], _ => none
  | f + 1, c :: rest, acc =>
    if c = '"' then some (⟨acc.reverse⟩, rest)
    else if c = '\\' then
      match rest with
      | [] => none
      | e :: rest' =>
        if e = '"' then parseStringBody f rest' ('"' :: acc)
        else if e = '\\' then parseStringBody f rest' ('\\' :: acc)
        else if e = '/' then parseStringBody f rest' ('/' :: acc)
        else if e = 'b' then parseStringBody f rest' (Char.ofNat 8 :: acc)
        else if e = 'f' then parseStringBody f rest' (Char.ofNat 12 :: acc)
        else if e = 'n' then parseStringBody f rest' ('\n' :: acc)
        else if e = 'r' then parseStringBody f rest' ('\r' :: acc)
        else if e = 't' then parseStringBody f rest' ('\t' :: acc)
        else if e = 'u' then
          match hex4 rest' with
          | none => none
          | some (n1, r1) =>
            if 0xD800 ≤ n1 ∧ n1 ≤ 0xDBFF then
              match r1 with
              | '\\' :: 'u' :: r2 =>
                (match hex4 r2 with
                 | some (n2, r3) =>
                   if 0xDC00 ≤ n2 ∧ n2 ≤ 0xDFFF then
                     parseStringBody f r3
                       (Char.ofNat (0x10000 + (n1 - 0xD800) * 0x400 + (n2 - 0xDC00)) :: acc)
                   else parseStringBody f r1 (Char.ofNat n1 :: acc)
                 | none => parseStringBody f r1 (Char.ofNat n1 :: acc))
              | _ => parseStringBody f r1 (Char.ofNat n1 :: acc)
            else parseStringBody f r1 (Char.ofNat n1 :: acc)
        else none
    else if c.toNat < 32 then none
    else parseStringBody f rest (c :: acc)

/-- Digits to a natural number. -/
def digitsToNat (ds : List Char) : ℕ :=
  ds.foldl (fun n c => 10 * n + (c.toNat - 48)) 0

/-- Parse a JSON number token: optional sign, integer part (`0` alone or a
nonzero-led digit run), optional fraction (a dot with at least one digit,
otherwise not consumed), optional exponent (`e`/`E`, optional sign, at least
one digit, otherwise not consumed) — the `json` scanner's `NUMBER_RE`. -/
def parseNumber (cs : List Char) : Option (ℚ × List Char) :=
  let p := match cs with
           | '-' :: r => (true, r)
           | _ => (false, cs)
  match p.2 with
  | [] => none
  | d :: rest =>
    if ¬ d.isDigit then none
    else
      let intPart : List Char × List Char :=
        if d = '0' then ([d], rest)
        else (d :: rest.takeWhile Char.isDigit, rest.dropWhile Char.isDigit)
      let base : ℚ := (digitsToNat intPart.1 : ℚ)
      let fracStep : ℚ × List Char :=
        match intPart.2 with
        | '.' :: cs3 =>
          let fs := cs3.takeWhile Char.isDigit
          if fs.isEmpty then (base, intPart.2)
          else (base + (digitsToNat fs : ℚ) / ((10 : ℚ) ^ fs.length),
                cs3.dropWhile Char.isDigit)
        | _ => (base, intPart.2)
      let expStep : ℚ × List Char :=
        match fracStep.2 with
        | e :: cs4 =>
          if e = 'e' ∨ e = 'E' then
            let sp := match cs4 with
                      | '+' :: r => (false, r)
                      | '-' :: r => (true, r)
                      | _ => (false, cs4)
            let es := sp.2.takeWhile Char.isDigit
            if es.isEmpty then (fracStep.1, fracStep.2)
            else
              ((if sp.1 then fracStep.1 / (10 : ℚ) ^ digitsToNat es
                else fracStep.1 * (10 : ℚ) ^ digitsToNat es),
               sp.2.dropWhile Char.isDigit)
          else (fracStep.1, fracStep.2)
        | [] => (fracStep.1, fracStep.2)
      some (if p.1 then -expStep.1 else expStep.1, expStep.2)

mutual

/-- Parse one JSON value. -/
def parseVal : ℕ → List Char → Option (JVal × List Char)
  | 0, _ => none
  | f + 1, cs =>
    match skipWs cs with
    | [] => none
    | 't' :: 'r' :: 'u' :: 'e' :: r => some (.jbool true, r)
    | 'f' :: 'a' :: 'l' :: 's' :: 'e' :: r => some (.jbool false, r)
    | 'n' :: 'u' :: 'l' :: 'l' :: r => some (.null, r)
    | 'N' :: 'a' :: 'N' :: r => some (.nonfinite "nan", r)
    | 'I' :: 'n' :: 'f' :: 'i' :: 'n' :: 'i' :: 't' :: 'y' :: r => some (.nonfinite "inf", r)
    | '-' :: 'I' :: 'n' :: 'f' :: 'i' :: 'n' :: 'i' :: 't' :: 'y' :: r =>
      some (.nonfinite "-inf", r)
    | '"' :: rest =>
      match parseStringBody (rest.length + 1) rest [] with
      | some (s, r) => some (.str s, r)
      | none => none
    | '{' :: rest =>
      (match skipWs rest with
       | '}' :: r => some (.obj [], r)
       | _ => parseObjItems f rest [])
    | '[' :: rest =>
      (match skipWs rest with
       | ']' :: r => some (.arr [], r)
       | _ => parseArrItems f rest [])
    | c :: rest =>
      if c.isDigit || c = '-' then parseNumber (c :: rest) |>.map (fun p => (.num p.1, p.2))
      else none

/-- Parse the members of a (non-empty) JSON object, after the brace. -/
def parseObjItems : ℕ → List Char → List (String × JVal) → Option (JVal × List Char)
  | 0, _, _ => none
  | f + 1, cs, acc =>
    match skipWs cs with
    | '"' :: rest =>
      match parseStringBody (rest.length + 1) rest [] with
      | none => none
      | some (k, cs1) =>
        match skipWs cs1 with
        | ':' :: cs2 =>
          match parseVal f cs2 with
          | none => none
          | some (v, cs3) =>
            match skipWs cs3 with
            | ',' :: cs4 => parseObjItems f cs4 (acc ++ [(k, v)])
            | '}' :: cs4 => some (.obj (acc ++ [(k, v)]), cs4)
            | _ => none
        | _ => none
    | _ => none

/-- Parse the elements of a (non-empty) JSON array, after the bracket. -/
def parseArrItems : ℕ → List Char → List JVal → Option (JVal × List Char)
  | 0, _, _ => none
  | f + 1, cs, acc =>
    match parseVal f cs with
    | none => none
    | some (v, cs1) =>
      match skipWs cs1 with
      | ',' :: cs2 => parseArrItems f cs2 (acc ++ [v])
      | ']' :: cs2 => some (.arr (acc ++ [v]), cs2)
      | _ => none

end

/-- `json.loads`: parse a whole string as one JSON value (trailing
whitespace allowed, anything else is an error). -/
def parse_json (s : String) : Option JVal :=
  match parseVal (2 * s.length + 8) s.data with
  | some (v, rest) => if (skipWs rest).isEmpty then some v else none
  | none => none

/-! ## Strategy planning (`orchestrator.py`) -/

/-- `QueryStrategy` (pydantic model) with its field defaults. -/
structure QueryStrategy where
  use_rag : Bool := true
  use_kag : Bool := false
  use_temporal : Bool := false
  use_tools : Bool := false
  rag_limit : ℤ := 10
  kg_depth : ℤ := 2
  time_range : Option String := none
  reasoning : String := ""
deriving DecidableEq, Repr

/-- Pydantic validation of a `bool` field: absent means the default, a JSON
boolean is accepted, any other JSON value is modelled as a validation error
(pydantic additionally coerces a few literals such as `0`/`1`; none of the
results below depends on those coercions). -/
def fieldBool (entries : List (String × JVal)) (key : String) (dflt : Bool) :
    Except String Bool :=
  match jlookup entries key with
  | none => .ok dflt
  | some (.jbool b) => .ok b
  | some _ => .error "validation"

/-- Pydantic validation of an `int` field (integral JSON numbers accepted). -/
def fieldInt (entries : List (String × JVal)) (key : String) (dflt : ℤ) :
    Except String ℤ :=
  match jlookup entries key with
  | none => .ok dflt
  | some (.num q) => if q.den = 1 then .ok q.num else .error "validation"
  | some _ => .error "validation"

/-- Pydantic validation of an `Optional[str]` field. -/
def fieldOptStr (entries : List (String × JVal)) (key : String) :
    Except String (Option String) :=
  match jlookup entries key with
  | none => .ok none
  | some .null => .ok none
  | some (.str s) => .ok (some s)
  | some _ => .error "validation"

/-- Pydantic validation of a `str` field. -/
def fieldStr (entries : List (String × JVal)) (key : String) (dflt : String) :
    Except String String :=
  match jlookup entries key with
  | none => .ok dflt
  | some (.str s) => .ok s
  | some _ => .error "validation"

/-- `QueryStrategy(**strategy_dict)`: validate each field against the dict,
extra keys ignored; a validation error raises (propagated to
`analyze_query`'s handler). -/
def buildStrategy (entries : List (String × JVal)) : Except String QueryStrategy := do
  let use_rag ← fieldBool entries "use_rag" true
  let use_kag ← fieldBool entries "use_kag" false
  let use_temporal ← fieldBool entries "use_temporal" false
  let use_tools ← fieldBool entries "use_tools" false
  let rag_limit ← fieldInt entries "rag_limit" 10
  let kg_depth ← fieldInt entries "kg_depth" 2
  let time_range ← fieldOptStr entries "time_range"
  let reasoning ← fieldStr entries "reasoning" ""
  return { use_rag := use_rag, use_kag := use_kag, use_temporal := use_temporal,
           use_tools := use_tools, rag_limit := rag_limit, kg_depth := kg_depth,
           time_range := time_range, reasoning := reasoning }

/-- `re.search(r'\x7b.*\x7d', llm_output, re.DOTALL)`: with the greedy
dot-all wildcard this is the substring from the first opening brace to the
last closing brace, provided the latter comes strictly after the former. -/
def extract_braces (s : String) : Option String :=
  match s.data.findIdx? (fun c => c = '{'),
        (s.data.reverse.findIdx? (fun c => c = '}')).map (fun i => s.data.length - 1 - i) with
  | some i, some j => if i < j then some ⟨(s.data.drop i).take (j - i + 1)⟩ else none
  | _, _ => none

/-- Initial-segment test on character lists. -/
def listIsInit : List Char → List Char → Bool
  | [], _ => true
  | _ :: _, [] => false
  | a :: as, b :: bs => a = b && listIsInit as bs

/-- Helper for `containsSub`: does the needle occur in any suffix? -/
def containsSubAux (nd : List Char) : List Char → Bool
  | [] => listIsInit nd []
  | c :: rest => listIsInit nd (c :: rest) || containsSubAux nd rest

/-- Python's `needle in hay` substring test. -/
def containsSub (needle hay : String) : Bool :=
  containsSubAux needle.data hay.data

/-- The dict returned by `_parse_strategy`'s exception handler. -/
def parse_error_dict : List (String × JVal) :=
  [("use_rag", .jbool true),
   ("reasoning", .str "Parse error - using default RAG strategy")]

/-- The keyword-heuristic dict built by `_parse_strategy` when the output
contains no brace-delimited JSON. -/
def keyword_fallback (llm_output : String) : List (String × JVal) :=
  let low := asciiLower llm_output
  [("use_rag", .jbool (containsSub "rag" low || containsSub "vector" low)),
   ("use_kag", .jbool (containsSub "knowledge graph" low || containsSub "relationship" low)),
   ("use_temporal", .jbool (containsSub "temporal" low || containsSub "time" low)),
   ("use_tools", .jbool (containsSub "tool" low || containsSub "external" low)),
   ("reasoning", .str (llm_output.take 200))]

/-- `json.loads(json_match.group())` inside `_parse_strategy`'s `try`: the
members when the extract parses as a JSON object, the handler dict when it
raises. -/
def parse_extracted (sub : String) : List (String × JVal) :=
  match parse_json sub with
  | some (.obj entries) => entries
  | _ => parse_error_dict

/-- `OrchestratorAgent._parse_strategy`: extract the brace-delimited JSON and
parse it; an invalid extract falls to the handler dict; no braces at all
falls to the keyword heuristic. -/
def parse_strategy (llm_output : String) : List (String × JVal) :=
  match extract_braces llm_output with
  | some sub => parse_extracted sub
  | none => keyword_fallback llm_output

/-- The default strategy built in `analyze_query`'s exception handler:
`QueryStrategy(use_rag=True, reasoning="Default strategy due to analysis
error")`. -/
def default_strategy_analysis_error : QueryStrategy :=
  { use_rag := true, reasoning := "Default strategy due to analysis error" }

/-- The body of `analyze_query`'s `try`: run the completion collaborator,
parse its output, validate the model. -/
def analyze_body (planO : Except Unit String) : Except String QueryStrategy :=
  match planO with
  | .error _ => .error "llm call failed"
  | .ok text => buildStrategy (parse_strategy text)

/-- `OrchestratorAgent.analyze_query`: any exception in the body is caught
and replaced by the default strategy. -/
def analyze_query (planO : Except Unit String) : QueryStrategy :=
  match analyze_body planO with
  | .ok st => st
  | .error _ => default_strategy_analysis_error

/-- `OrchestratorAgent.generate_answer`: the completion collaborator's text,
or the fixed apology when anything in the `try` (the LLM call or the source
formatting) raises. -/
def generate_answer (synthO : Except Unit String) : String :=
  match synthO with
  | .ok text => text
  | .error _ =>
    "I apologize, but I encountered an error while generating the answer. Please try again."

/-! ## Sub-agent call wrappers (`rag_agent.py`, `kag_agent.py`)

Each agent method wraps its collaborator calls in a `try/except` that
returns a result dict with empty result lists (plus an `error` note) — a
failing collaborator never raises to `UnifiedAgent.process_query`. -/

/-- `RAGAgent.search`: underlying vector-search outcome, empty `results` on
any failure. -/
def rag_agent_search (o : Except Unit RagData) : RagData :=
  match o with
  | .ok d => d
  | .error _ => ⟨[]⟩

/-- `KAGAgent.analyze_relationships`: empty entity/relationship/insight
lists on any failure. -/
def kag_analyze_relationships (o : Except Unit KagData) : KagData :=
  match o with
  | .ok d => d
  | .error _ => ⟨[], []⟩

/-- `KAGAgent.temporal_search`: empty timeline on any failure. -/
def kag_temporal_search (o : Except Unit TemporalData) : TemporalData :=
  match o with
  | .ok d => d
  | .error _ => ⟨[]⟩

/-! ## Result combination (`UnifiedAgent`) -/

/-- `UnifiedAgent._calculate_confidence`: mean of the per-source signals —
mean RAG score when at least one result, `min(len(relationships)/10, 1)`
when KAG ran, `min(len(timeline)/5, 1)` when temporal ran — defaulting to
`0.5` with no signal at all. -/
def calculate_confidence (rag : Option RagData) (kag : Option KagData)
    (temporal : Option TemporalData) : ℚ :=
  let ragScores : List ℚ :=
    match rag with
    | some d =>
      let rs := d.results.map (fun r => r.score)
      if rs.isEmpty then [] else [rs.sum / rs.length]
    | none => []
  let kagScores : List ℚ :=
    match kag with
    | some d => [min ((d.relationships.length : ℚ) / 10) 1]
    | none => []
  let tmpScores : List ℚ :=
    match temporal with
    | some d => [min ((d.timeline.length : ℚ) / 5) 1]
    | none => []
  let scores := ragScores ++ kagScores ++ tmpScores
  if scores.isEmpty then 0.5 else scores.sum / scores.length

/-- The dict returned by `UnifiedAgent._combine_results`. -/
structure Combined where
  answer : String
  sources : List SourceItem
  confidence : ℚ

/-- `UnifiedAgent._combine_results`: tag and concatenate the per-source
items (documents, then relationships, then timeline events), synthesize the
answer (the prompt built from the truncated content/source lists only feeds
the completion collaborator and is not otherwise observable), and attach the
calculated confidence. -/
def combine_results (rag : Option RagData) (kag : Option KagData)
    (temporal : Option TemporalData) (synthO : Except Unit String) : Combined :=
  let ragSources :=
    match rag with
    | some d => d.results.map (fun r => SourceItem.document r.document_title r.content r.score)
    | none => []
  let kagSources :=
    match kag with
    | some d => d.relationships.map (fun rel => SourceItem.relationship [rel.source, rel.target] rel.rtype)
    | none => []
  let tmpSources :=
    match temporal with
    | some d => d.timeline.map (fun e => SourceItem.temporal e.date e.description e.entities)
    | none => []
  { answer := generate_answer synthO
    sources := ragSources ++ kagSources ++ tmpSources
    confidence := calculate_confidence rag kag temporal }

/-- `UnifiedAgent._determine_query_type`. -/
def determine_query_type (strategies : List String) : String :=
  if strategies.contains "KAG-Temporal" then "temporal"
  else if strategies.contains "KAG" && strategies.contains "RAG" then "analytical"
  else if strategies.contains "RAG" then "factual"
  else "general"

/-! ## Request / response models (`unified_agent.py`) -/

/-- `QueryRequest` (pydantic model); `context` and `filters` only feed
prompts and collaborator calls. -/
structure QueryRequest where
  query : String
  user_id : Option String := none
  session_id : Option String := none
  use_cache : Bool := true

/-- `QueryResponse` (pydantic model). -/
structure QueryResponse where
  answer : String
  sources : List SourceItem
  confidence : ℚ
  strategy_used : List String
  processing_time : ℚ
  cached : Bool := false
  metadata : Option JVal := none

/-! ## The stored dict as seen through `json.loads`
(for `UnifiedAgent._check_cache`'s raw dict accesses) -/

/-- A float annotation value (the `similarity_score`) inside a returned
dict; JSON itself never produces this constructor. -/
def jRealTag : ℝ → JVal := fun _ => .null

/-- Serialize one combined source item back to its dict literal from
`_combine_results` (the untracked KAG `properties` dict is empty). -/
def sourceToJ : SourceItem → JVal
  | .document title content score =>
    .obj [("type", .str "document"), ("title", .str title), ("content", .str content),
          ("score", .num score), ("source", .str "rag")]
  | .relationship entities rel =>
    .obj [("type", .str "relationship"), ("entities", .arr (entities.map .str)),
          ("relationship", .str rel), ("properties", .obj []), ("source", .str "kag")]
  | .temporal date event entities =>
    .obj [("type", .str "temporal"), ("date", .str date), ("event", .str event),
          ("entities", .arr (entities.map .str)), ("source", .str "temporal")]

/-- Serialize the stored `result` payload. -/
def payloadToJ (p : ResultPayload) : JVal :=
  .obj [("answer", .str p.answer),
        ("sources", .arr (p.sources.map sourceToJ)),
        ("confidence", .num p.confidence),
        ("strategy_used", .arr (p.strategy_used.map .str)),
        ("metadata", match p.metadata with | some j => j | none => .null)]

/-- Serialize the stored `user_context` (`user_context or \x7b\x7d`). -/
def ctxToJ : Option UserCtx → JVal
  | none => .obj []
  | some uc =>
    .obj [("user_id", match uc.user_id with | some u => .str u | none => .null),
          ("session_id", match uc.session_id with | some s => .str s | none => .null)]

/-- The top-level key/value list of the `cache_data` dict exactly as built in
`CAGAgent.update_cache` (and round-tripped through JSON): note there is no
top-level `answer` or `sources` key — those live inside `result`. -/
def cacheDataToJ (d : CacheData) : List (String × JVal) :=
  [("query", .str d.query),
   ("result", payloadToJ d.result),
   ("user_context", ctxToJ d.user_context),
   ("query_type", .str d.query_type),
   ("cached_at", .num (d.cached_at : ℚ)),
   ("confidence", .num d.confidence),
   ("ttl", .num (d.ttl : ℚ))]

/-- The dict handed back by `CAGAgent.check_cache`: the stored dict plus the
`cache_key` tag, or plus the similarity annotations. -/
def hitDict : CacheHit → List (String × JVal)
  | .keyHit d k => cacheDataToJ d ++ [("cache_key", .str k)]
  | .simHit d score oq =>
    cacheDataToJ d ++ [("similarity_score", jRealTag score), ("original_query", .str oq)]

/-- Decode a JSON string, defaulting to `""`. -/
def jStrD : Option JVal → String
  | some (.str s) => s
  | _ => ""

/-- Decode a JSON number, defaulting to `0`
(`cached_result.get('confidence', 0)`). -/
def jNumD : Option JVal → ℚ
  | some (.num q) => q
  | _ => 0

/-- Decode a list of strings (`strategy_used`), defaulting to `['CACHE']`. -/
def jStrListD : Option JVal → List String
  | some (.arr l) => l.filterMap (fun j => match j with | .str s => some s | _ => none)
  | _ => ["CACHE"]

/-- Decode a stored source item (partial inverse of `sourceToJ`; items of
unknown shape are dropped). -/
def jToSource (j : JVal) : Option SourceItem :=
  match j with
  | .obj fs =>
    match jlookup fs "type" with
    | some (.str "document") =>
      some (.document (jStrD (jlookup fs "title")) (jStrD (jlookup fs "content"))
        (jNumD (jlookup fs "score")))
    | some (.str "relationship") =>
      some (.relationship
        (match jlookup fs "entities" with
         | some (.arr l) => l.filterMap (fun x => match x with | .str s => some s | _ => none)
         | _ => [])
        (jStrD (jlookup fs "relationship")))
    | some (.str "temporal") =>
      some (.temporal (jStrD (jlookup fs "date")) (jStrD (jlookup fs "event"))
        (match jlookup fs "entities" with
         | some (.arr l) => l.filterMap (fun x => match x with | .str s => some s | _ => none)
         | _ => []))
    | _ => none
  | _ => none

/-- Decode the `sources` list. -/
def jToSources : Option JVal → List SourceItem
  | some (.arr l) => l.filterMap jToSource
  | _ => []

/-! ## `UnifiedAgent._check_cache` and `process_query` -/

/-- `UnifiedAgent._check_cache`: look the query up through the CAG agent and,
when the stored confidence exceeds 0.9, build the cached `QueryResponse`
from the returned dict.  The dict accesses are by key: `['answer']` (and
then `['sources']`) raise `KeyError` when absent — and the stored dict keeps
those under its nested `result` — modelled by the `.error` branches, which
propagate to `process_query`'s handler. -/
noncomputable def unified_check_cache (cfg : CacheCfg) (now : ℤ) (store : Store) (req : QueryRequest)
    (qEmbO : Except Unit (List ℚ)) : Except String (Option QueryResponse × Store) :=
  let ctx : Option UserCtx := some ⟨req.user_id, req.session_id⟩
  let res := check_cache cfg now store req.query ctx qEmbO
  match res.1 with
  | none => .ok (none, res.2)
  | some hit =>
    let fields := hitDict hit
    if jNumD (jlookup fields "confidence") > (9 : ℚ) / 10 then
      match jlookup fields "answer" with
      | none => .error "KeyError: answer"
      | some a =>
        match jlookup fields "sources" with
        | none => .error "KeyError: sources"
        | some s =>
          .ok (some
            { answer := jStrD (some a)
              sources := jToSources (some s)
              confidence := jNumD (jlookup fields "confidence")
              strategy_used := jStrListD (jlookup fields "strategy_used")
              processing_time := 0
              cached := true
              metadata := jlookup fields "metadata" }, res.2)
    else .ok (none, res.2)

/-- The collaborator behaviours one request can observe, as inputs:
the planner completion, the three retrieval backends, the synthesis
completion, and the embedding service used by the cache. -/
structure Collabs where
  planOutcome : Except Unit String
  ragOutcome : Except Unit RagData
  kagOutcome : Except Unit KagData
  temporalOutcome : Except Unit TemporalData
  synthOutcome : Except Unit String
  embedOutcome : Except Unit (List ℚ)

/-- `UnifiedAgent._update_cache`: store the response payload under the
query, typed from the strategies that fired. -/
def unified_update_cache (cfg : CacheCfg) (now : ℤ) (store : Store) (req : QueryRequest)
    (resp : QueryResponse) (embedO : Except Unit (List ℚ)) : Store :=
  update_cache cfg now store req.query
    ⟨resp.answer, resp.sources, resp.confidence, resp.strategy_used, resp.metadata⟩
    (some ⟨req.user_id, req.session_id⟩)
    (determine_query_type resp.strategy_used) embedO

/-- `strategy.dict()` for the response metadata. -/
def strategyToJ (st : QueryStrategy) : JVal :=
  .obj [("use_rag", .jbool st.use_rag), ("use_kag", .jbool st.use_kag),
        ("use_temporal", .jbool st.use_temporal), ("use_tools", .jbool st.use_tools),
        ("rag_limit", .num st.rag_limit), ("kg_depth", .num st.kg_depth),
        ("time_range", match st.time_range with | some s => .str s | none => .null),
        ("reasoning", .str st.reasoning)]

/-- The `result_counts` metadata: `len(v.get('results', []))` per entry of
the `results` dict — the KAG and temporal dicts carry no `results` key, so
they count 0. -/
def result_counts (rag : Option RagData) (kag : Option KagData)
    (temporal : Option TemporalData) : List (String × JVal) :=
  (match rag with | some d => [("rag", .num (d.results.length : ℚ))] | none => [])
  ++ (match kag with | some _ => [("kag", .num 0)] | none => [])
  ++ (match temporal with | some _ => [("temporal", .num 0)] | none => [])

/-- `UnifiedAgent.process_query`: cache check (when enabled), planning,
sequential retrieval of the enabled sources, combination, response assembly,
cache write (when enabled).  The outer `except` logs and re-raises, so an
exception below (only the `_check_cache` dict accesses can raise in the
model) escapes as `.error`.  `elapsed` is the measured wall-clock
`processing_time` for a non-cached response. -/
noncomputable def process_query (cfg : CacheCfg) (now : ℤ) (elapsed : ℚ) (store : Store) (req : QueryRequest)
    (co : Collabs) : Except String (QueryResponse × Store) :=
  let afterCache : Except String (Option QueryResponse × Store) :=
    if req.use_cache then unified_check_cache cfg now store req co.embedOutcome
    else .ok (none, store)
  match afterCache with
  | .error e => .error e
  | .ok (some resp, store1) => .ok (resp, store1)
  | .ok (none, store1) =>
    let strategy := analyze_query co.planOutcome
    let strategies_used :=
      (if strategy.use_rag then ["RAG"] else [])
      ++ (if strategy.use_kag then ["KAG"] else [])
      ++ (if strategy.use_temporal then ["KAG-Temporal"] else [])
    let ragRes := if strategy.use_rag then some (rag_agent_search co.ragOutcome) else none
    let kagRes := if strategy.use_kag then some (kag_analyze_relationships co.kagOutcome) else none
    let tmpRes := if strategy.use_temporal then some (kag_temporal_search co.temporalOutcome) else none
    let combined := combine_results ragRes kagRes tmpRes co.synthOutcome
    let response : QueryResponse :=
      { answer := combined.answer
        sources := combined.sources
        confidence := combined.confidence
        strategy_used := strategies_used
        processing_time := elapsed
        cached := false
        metadata := some (.obj [("strategy", strategyToJ strategy),
                                ("result_counts", .obj (result_counts ragRes kagRes tmpRes))]) }
    let store2 :=
      if req.use_cache then unified_update_cache cfg now store1 req response co.embedOutcome
      else store1
    .ok (response, store2)

/-! ## Execution trace of the retrieval step (`process_query`, step 3)

Each enabled retrieval call in `process_query` is an `await` expression
evaluated to completion before the next statement runs, so the observable
call ordering is the serialization below: the RAG call starts and ends, then
the KAG call, then the temporal call. -/

/-- A retrieval call boundary event. -/
inductive RetrievalEvent where
  | callStart (src : String)
  | callEnd (src : String)
deriving DecidableEq, Repr

/-- The event trace of the retrieval phase for given strategy flags,
transcribing the three sequential `await` statements of `process_query`. -/
def retrieval_trace (use_rag use_kag use_temporal : Bool) : List RetrievalEvent :=
  (if use_rag then [.callStart "RAG", .callEnd "RAG"] else [])
  ++ (if use_kag then [.callStart "KAG", .callEnd "KAG"] else [])
  ++ (if use_temporal then [.callStart "KAG-Temporal", .callEnd "KAG-Temporal"] else [])

/-- Index of an event in a trace. -/
def eventIdx (tr : List RetrievalEvent) (e : RetrievalEvent) : Option ℕ :=
  tr.findIdx? (fun x => x = e)

/-- Two calls overlap (run concurrently) exactly when each starts before
the other ends. -/
def overlapping (tr : List RetrievalEvent) (a b : String) : Bool :=
  match eventIdx tr (.callStart a), eventIdx tr (.callEnd a),
        eventIdx tr (.callStart b), eventIdx tr (.callEnd b) with
  | some sa, some ea, some sb, some eb => decide (sb < ea) && decide (sa < eb)
  | _, _, _, _ => false

/-- What one probe of `check_cache` yields against the *initial* store: the
record and the key when the key binds a fresh record, nothing otherwise.
The probing loop is proved below to return the first key for which this is
`some`. -/
def probe_spec (cfg : CacheCfg) (now : ℤ) (st : Store) (k : String) :
    Option (CacheData × String) :=
  match redisGet now st k with
  | some (.cacheVal d) => if is_fresh cfg now d then some (d, k) else none
  | _ => none

/-- The RAG signal of `_calculate_confidence`: the mean similarity score,
present only when the search returned at least one result. -/
def rag_signal : Option RagData → List ℚ
  | some d =>
    if (d.results.map (fun r => r.score)).isEmpty then []
    else [(d.results.map (fun r => r.score)).sum /
          ((d.results.map (fun r => r.score)).length : ℚ)]
  | none => []

/-- The graph signal of `_calculate_confidence`, present whenever KAG ran. -/
def kag_signal : Option KagData → List ℚ
  | some d => [min ((d.relationships.length : ℚ) / 10) 1]
  | none => []

/-- The temporal signal of `_calculate_confidence`, present whenever the
temporal search ran. -/
def temporal_signal : Option TemporalData → List ℚ
  | some d => [min ((d.timeline.length : ℚ) / 5) 1]
  | none => []

/-- The per-source signal list, for stating the confidence formula. -/
def confidence_signals (rag : Option RagData) (kag : Option KagData)
    (temporal : Option TemporalData) : List ℚ :=
  rag_signal rag ++ kag_signal kag ++ temporal_signal temporal

/-! # Theorems -/

/-! ## Association-store lemmas -/

theorem find?_filter_of_imp {α : Type} (p q : α → Bool) (l : List α)
    (h : ∀ x, p x = true → q x = true) :
    (l.filter q).find? p = l.find? p := by
  induction l with
  | nil => rfl
  | cons x xs ih =>
    by_cases hq : q x = true
    · rw [List.filter_cons_of_pos hq]
      by_cases hp : p x = true
      · rw [List.find?_cons_of_pos _ hp, List.find?_cons_of_pos _ hp]
      · rw [List.find?_cons_of_neg _ (by simpa using hp),
          List.find?_cons_of_neg _ (by simpa using hp), ih]
    · have hp : ¬ p x = true := fun hpx => hq (h x hpx)
      rw [List.filter_cons_of_neg (by simpa using hq),
        List.find?_cons_of_neg _ (by simpa using hp), ih]

theorem redisGet_redisSet (now : ℤ) (st : Store) (k0 k : String) (v : StoreVal) (exp : ℤ) :
    redisGet now (redisSet st k0 v exp) k =
      if k = k0 then (if now < exp then some v else none) else redisGet now st k := by
  by_cases hk : k = k0
  · subst hk
    simp [redisGet, redisSet, List.find?_cons_of_pos]
  · have hfind : ((k0, (⟨v, exp⟩ : StoreEntry)) :: st.filter
        (fun e => e.1 ≠ k0)).find? (fun e => e.1 = k) =
        (st.filter (fun e => e.1 ≠ k0)).find? (fun e => e.1 = k) := by
      apply List.find?_cons_of_neg
      simpa using fun h => hk h.symm
    unfold redisGet redisSet
    rw [hfind, find?_filter_of_imp _ _ _ (fun x hx => by
      simp only [decide_eq_true_eq] at hx ⊢
      rw [hx]; exact fun h => hk h)]
    simp [hk]

theorem redisGet_redisDelete (now : ℤ) (st : Store) (k0 k : String) :
    redisGet now (redisDelete st k0) k =
      if k = k0 then none else redisGet now st k := by
  unfold redisGet redisDelete
  by_cases hk : k = k0
  · subst hk
    have hnone : (st.filter (fun e => e.1 ≠ k)).find? (fun e => e.1 = k) = none := by
      rw [List.find?_eq_none]
      intro x hx
      have hmem := List.of_mem_filter hx
      simpa using hmem
    rw [hnone]
    simp
  · rw [find?_filter_of_imp _ _ _ (fun x hx => by
      simp only [decide_eq_true_eq] at hx ⊢
      rw [hx]; exact fun h => hk h)]
    simp [hk]

theorem probe_keys_cons_none (cfg : CacheCfg) (now : ℤ) (k : String) (ks : List String)
    (st : Store) (h : redisGet now st k = none) :
    probe_keys cfg now (k :: ks) st = probe_keys cfg now ks st := by
  show (match redisGet now st k with
    | some (.cacheVal d) =>
      if is_fresh cfg now d then (some (d, k), st)
      else probe_keys cfg now ks (redisDelete st k)
    | some (.semVal _) => probe_keys cfg now ks (redisDelete st k)
    | none => probe_keys cfg now ks st) = _
  rw [h]

theorem probe_keys_cons_fresh (cfg : CacheCfg) (now : ℤ) (k : String) (ks : List String)
    (st : Store) (d : CacheData) (h : redisGet now st k = some (.cacheVal d))
    (hf : is_fresh cfg now d) :
    probe_keys cfg now (k :: ks) st = (some (d, k), st) := by
  show (match redisGet now st k with
    | some (.cacheVal d) =>
      if is_fresh cfg now d then (some (d, k), st)
      else probe_keys cfg now ks (redisDelete st k)
    | some (.semVal _) => probe_keys cfg now ks (redisDelete st k)
    | none => probe_keys cfg now ks st) = _
  rw [h]
  simp [hf]

theorem probe_keys_cons_stale (cfg : CacheCfg) (now : ℤ) (k : String) (ks : List String)
    (st : Store) (d : CacheData) (h : redisGet now st k = some (.cacheVal d))
    (hf : ¬ is_fresh cfg now d) :
    probe_keys cfg now (k :: ks) st = probe_keys cfg now ks (redisDelete st k) := by
  show (match redisGet now st k with
    | some (.cacheVal d) =>
      if is_fresh cfg now d then (some (d, k), st)
      else probe_keys cfg now ks (redisDelete st k)
    | some (.semVal _) => probe_keys cfg now ks (redisDelete st k)
    | none => probe_keys cfg now ks st) = _
  rw [h]
  simp [hf]

theorem probe_keys_cons_sem (cfg : CacheCfg) (now : ℤ) (k : String) (ks : List String)
    (st : Store) (s : SemanticData) (h : redisGet now st k = some (.semVal s)) :
    probe_keys cfg now (k :: ks) st = probe_keys cfg now ks (redisDelete st k) := by
  show (match redisGet now st k with
    | some (.cacheVal d) =>
      if is_fresh cfg now d then (some (d, k), st)
      else probe_keys cfg now ks (redisDelete st k)
    | some (.semVal _) => probe_keys cfg now ks (redisDelete st k)
    | none => probe_keys cfg now ks st) = _
  rw [h]

theorem redisGet_foldl_set (now : ℤ) (ks : List String) (st : Store) (v : StoreVal)
    (exp : ℤ) (k : String) :
    redisGet now (ks.foldl (fun s key => redisSet s key v exp) st) k =
      if k ∈ ks then (if now < exp then some v else none) else redisGet now st k := by
  induction ks generalizing st with
  | nil => simp
  | cons k0 ks ih =>
    simp only [List.foldl_cons]
    rw [ih]
    by_cases hk : k ∈ ks
    · simp [hk, List.mem_cons]
    · by_cases hk0 : k = k0
      · simp [hk, hk0, redisGet_redisSet]
      · simp [hk, hk0, redisGet_redisSet, List.mem_cons]

theorem mem_foldl_redisDelete (ks : List String) (st : Store) (e : String × StoreEntry) :
    e ∈ ks.foldl redisDelete st ↔ e ∈ st ∧ e.1 ∉ ks := by
  induction ks generalizing st with
  | nil => simp
  | cons k0 ks ih =>
    simp only [List.foldl_cons]
    rw [ih]
    constructor
    · rintro ⟨hmem, hnot⟩
      have := List.of_mem_filter hmem
      refine ⟨List.mem_of_mem_filter hmem, ?_⟩
      simp only [List.mem_cons, not_or]
      exact ⟨by simpa using this, hnot⟩
    · rintro ⟨hmem, hnot⟩
      simp only [List.mem_cons, not_or] at hnot
      exact ⟨List.mem_filter.2 ⟨hmem, by simpa using hnot.1⟩, hnot.2⟩

/-! ## Probe-loop lemmas -/

theorem findSome?_congr {α β : Type} (f g : α → Option β) (l : List α)
    (h : ∀ x ∈ l, f x = g x) : l.findSome? f = l.findSome? g := by
  induction l with
  | nil => rfl
  | cons x xs ih =>
    simp only [List.findSome?_cons]
    rw [h x (by simp)]
    cases g x with
    | none => exact ih (fun y hy => h y (by simp [hy]))
    | some v => rfl

theorem probe_spec_redisDelete (cfg : CacheCfg) (now : ℤ) (st : Store) (k0 k : String)
    (h0 : probe_spec cfg now st k0 = none) :
    probe_spec cfg now (redisDelete st k0) k = probe_spec cfg now st k := by
  unfold probe_spec
  rw [redisGet_redisDelete]
  by_cases hk : k = k0
  · subst hk
    unfold probe_spec at h0
    simp only [if_pos rfl]
    exact h0.symm
  · simp [hk]

theorem probe_keys_fst (cfg : CacheCfg) (now : ℤ) (ks : List String) (st : Store) :
    (probe_keys cfg now ks st).1 = ks.findSome? (probe_spec cfg now st) := by
  induction ks generalizing st with
  | nil => rfl
  | cons k ks ih =>
    rw [List.findSome?_cons]
    show (match redisGet now st k with
      | some (.cacheVal d) =>
        if is_fresh cfg now d then (some (d, k), st)
        else probe_keys cfg now ks (redisDelete st k)
      | some (.semVal _) => probe_keys cfg now ks (redisDelete st k)
      | none => probe_keys cfg now ks st).1 = _
    cases hg : redisGet now st k with
    | none =>
      have hspec : probe_spec cfg now st k = none := by unfold probe_spec; rw [hg]
      rw [hspec]
      exact ih st
    | some v =>
      cases v with
      | cacheVal d =>
        by_cases hf : is_fresh cfg now d
        · have hspec : probe_spec cfg now st k = some (d, k) := by
            unfold probe_spec; rw [hg]; simp [hf]
          rw [hspec]
          simp [hf]
        · have hspec : probe_spec cfg now st k = none := by
            unfold probe_spec; rw [hg]; simp [hf]
          rw [hspec]
          simp only [if_neg hf]
          rw [ih]
          exact findSome?_congr _ _ _
            (fun k' _ => probe_spec_redisDelete cfg now st k k' hspec)
      | semVal s =>
        have hspec : probe_spec cfg now st k = none := by unfold probe_spec; rw [hg]
        rw [hspec]
        rw [ih]
        exact findSome?_congr _ _ _
          (fun k' _ => probe_spec_redisDelete cfg now st k k' hspec)

theorem probe_keys_get_none_mono (cfg : CacheCfg) (now : ℤ) (ks : List String) (st : Store)
    (k : String) (h : redisGet now st k = none) :
    redisGet now (probe_keys cfg now ks st).2 k = none := by
  induction ks generalizing st with
  | nil => exact h
  | cons k0 ks ih =>
    show redisGet now (match redisGet now st k0 with
      | some (.cacheVal d) =>
        if is_fresh cfg now d then (some (d, k0), st)
        else probe_keys cfg now ks (redisDelete st k0)
      | some (.semVal _) => probe_keys cfg now ks (redisDelete st k0)
      | none => probe_keys cfg now ks st).2 k = none
    have hdel : redisGet now (redisDelete st k0) k = none := by
      rw [redisGet_redisDelete]
      by_cases hk : k = k0 <;> simp [hk, h]
    cases hg : redisGet now st k0 with
    | none => exact ih st h
    | some v =>
      cases v with
      | cacheVal d =>
        by_cases hf : is_fresh cfg now d
        · simp [hf, h]
        · simp only [if_neg hf]
          exact ih _ hdel
      | semVal s => exact ih _ hdel

theorem probe_keys_all_none (cfg : CacheCfg) (now : ℤ) (ks : List String) (st : Store)
    (h : ∀ k ∈ ks, redisGet now st k = none) :
    probe_keys cfg now ks st = (none, st) := by
  induction ks with
  | nil => rfl
  | cons k0 ks ih =>
    show (match redisGet now st k0 with
      | some (.cacheVal d) =>
        if is_fresh cfg now d then (some (d, k0), st)
        else probe_keys cfg now ks (redisDelete st k0)
      | some (.semVal _) => probe_keys cfg now ks (redisDelete st k0)
      | none => probe_keys cfg now ks st) = (none, st)
    rw [h k0 (by simp)]
    exact ih (fun k hk => h k (by simp [hk]))

theorem probe_keys_none_clears (cfg : CacheCfg) (now : ℤ) (ks : List String) (st : Store)
    (hres : (probe_keys cfg now ks st).1 = none) :
    ∀ k ∈ ks, redisGet now (probe_keys cfg now ks st).2 k = none := by
  induction ks generalizing st with
  | nil => simp
  | cons k0 ks ih =>
    intro k hk
    cases hg : redisGet now st k0 with
    | none =>
      rw [probe_keys_cons_none cfg now k0 ks st hg] at hres ⊢
      rcases List.mem_cons.1 hk with hk0 | hks
      · subst hk0; exact probe_keys_get_none_mono cfg now ks st k hg
      · exact ih st hres k hks
    | some v =>
      cases v with
      | cacheVal d =>
        by_cases hf : is_fresh cfg now d
        · rw [probe_keys_cons_fresh cfg now k0 ks st d hg hf] at hres
          exact absurd hres (by simp)
        · rw [probe_keys_cons_stale cfg now k0 ks st d hg hf] at hres ⊢
          rcases List.mem_cons.1 hk with hk0 | hks
          · subst hk0
            exact probe_keys_get_none_mono cfg now ks _ k
              (by rw [redisGet_redisDelete]; simp)
          · exact ih _ hres k hks
      | semVal s =>
        rw [probe_keys_cons_sem cfg now k0 ks st s hg] at hres ⊢
        rcases List.mem_cons.1 hk with hk0 | hks
        · subst hk0
          exact probe_keys_get_none_mono cfg now ks _ k
            (by rw [redisGet_redisDelete]; simp)
        · exact ih _ hres k hks

theorem probe_keys_val_inv (cfg : CacheCfg) (now : ℤ) (ks : List String) (st : Store)
    (P : CacheData → Prop)
    (hinv : ∀ k ∈ ks, ∀ d, redisGet now st k = some (.cacheVal d) → P d) :
    ∀ d k, (probe_keys cfg now ks st).1 = some (d, k) → P d := by
  induction ks generalizing st with
  | nil => intro d k h; exact absurd h (by simp [probe_keys])
  | cons k0 ks ih =>
    intro d k h
    have hdelinv : ∀ k' ∈ ks, ∀ d',
        redisGet now (redisDelete st k0) k' = some (.cacheVal d') → P d' := by
      intro k' hk' d' hget
      rw [redisGet_redisDelete] at hget
      by_cases hkk : k' = k0
      · rw [if_pos hkk] at hget; exact absurd hget (by simp)
      · rw [if_neg hkk] at hget
        exact hinv k' (by simp [hk']) d' hget
    cases hg : redisGet now st k0 with
    | none =>
      rw [probe_keys_cons_none cfg now k0 ks st hg] at h
      exact ih st (fun k' hk' => hinv k' (by simp [hk'])) d k h
    | some v =>
      cases v with
      | cacheVal d0 =>
        by_cases hf : is_fresh cfg now d0
        · rw [probe_keys_cons_fresh cfg now k0 ks st d0 hg hf] at h
          have hpair : some (d0, k0) = some (d, k) := h
          have hd : d0 = d := congrArg Prod.fst (Option.some.inj hpair)
          exact hd ▸ hinv k0 (by simp) d0 hg
        · rw [probe_keys_cons_stale cfg now k0 ks st d0 hg hf] at h
          exact ih _ hdelinv d k h
      | semVal s =>
        rw [probe_keys_cons_sem cfg now k0 ks st s hg] at h
        exact ih _ hdelinv d k h

/-! ## Mean bounds -/

theorem mean_mem_unit (l : List ℚ) (hne : l ≠ []) (h : ∀ x ∈ l, 0 ≤ x ∧ x ≤ 1) :
    0 ≤ l.sum / l.length ∧ l.sum / l.length ≤ 1 := by
  have hlen : 0 < (l.length : ℚ) := by
    exact_mod_cast List.length_pos.2 hne
  have hsum0 : 0 ≤ l.sum := List.sum_nonneg (fun x hx => (h x hx).1)
  have hsum1 : l.sum ≤ (l.length : ℚ) := by
    have := List.sum_le_card_nsmul l 1 (fun x hx => (h x hx).2)
    simpa using this
  exact ⟨div_nonneg hsum0 hlen.le, (div_le_one hlen).2 hsum1⟩

/-! ## Claim C10 -/

/-- C10: the claim states that when more than one retrieval source is
enabled, the enabled retrieval collaborator calls run concurrently
(overlapping).  The code performs them as consecutive `await` statements:
for every combination of strategy flags, each retrieval call ends before the
next one starts, and no pair of distinct calls overlaps — refuting the
claimed concurrency (the spec's §5 requirement and the code's own "Execute
strategies in parallel" comment notwithstanding). -/
theorem C10_retrieval_sequential :
    retrieval_trace true true true =
      [.callStart "RAG", .callEnd "RAG", .callStart "KAG", .callEnd "KAG",
       .callStart "KAG-Temporal", .callEnd "KAG-Temporal"]
    ∧ (∀ r k t : Bool,
        overlapping (retrieval_trace r k t) "RAG" "KAG" = false
        ∧ overlapping (retrieval_trace r k t) "RAG" "KAG-Temporal" = false
        ∧ overlapping (retrieval_trace r k t) "KAG" "KAG-Temporal" = false
        ∧ overlapping (retrieval_trace r k t) "KAG" "RAG" = false
        ∧ overlapping (retrieval_trace r k t) "KAG-Temporal" "RAG" = false
        ∧ overlapping (retrieval_trace r k t) "KAG-Temporal" "KAG" = false) := by
  constructor
  · rfl
  · intro r k t
    cases r <;> cases k <;> cases t <;> exact ⟨rfl, rfl, rfl, rfl, rfl, rfl⟩

/-! ## Claim C9 -/

/-- C9 fails as stated: `invalidate_cache_pattern` deletes the matching keys
but returns `None`, not the number of keys removed — on a store where the
pattern matches one key, the call removes that key yet its return value is
`none` rather than a count. -/
theorem C9_counterexample :
    (invalidate_cache_pattern 0
      [("user:42:q1", ⟨.cacheVal ⟨"q1", ⟨"a", [], 1, [], none⟩, none, "factual", 0, 1, 3600⟩, 100⟩),
       ("exact:q1", ⟨.cacheVal ⟨"q1", ⟨"a", [], 1, [], none⟩, none, "factual", 0, 1, 3600⟩, 100⟩)]
      "user:42:*").2 = none
    ∧ ((invalidate_cache_pattern 0
      [("user:42:q1", ⟨.cacheVal ⟨"q1", ⟨"a", [], 1, [], none⟩, none, "factual", 0, 1, 3600⟩, 100⟩),
       ("exact:q1", ⟨.cacheVal ⟨"q1", ⟨"a", [], 1, [], none⟩, none, "factual", 0, 1, 3600⟩, 100⟩)]
      "user:42:*").1).map Prod.fst = ["exact:q1"] := by
  exact ⟨rfl, by decide⟩

/-- C9 (amended): `invalidate_cache_pattern` deletes every live key matching
the glob pattern and leaves every other entry intact, but returns `None`
(the count of removed keys is only logged, never returned — also when zero
keys match). -/
theorem C9_invalidate (now : ℤ) (store : Store) (pattern : String) :
    (invalidate_cache_pattern now store pattern).2 = none
    ∧ (∀ k, k ∈ redisKeys now store pattern →
        ((invalidate_cache_pattern now store pattern).1.find? (fun e => e.1 = k)) = none)
    ∧ (∀ e ∈ store, e.1 ∉ redisKeys now store pattern →
        e ∈ (invalidate_cache_pattern now store pattern).1) := by
  refine ⟨rfl, ?_, ?_⟩
  · intro k hk
    unfold invalidate_cache_pattern
    simp only
    by_cases he : (redisKeys now store pattern).isEmpty
    · rw [List.isEmpty_iff] at he
      rw [he] at hk
      exact absurd hk (List.not_mem_nil k)
    · rw [if_neg he, List.find?_eq_none]
      intro x hx
      have hmem := (mem_foldl_redisDelete _ _ _).1 hx
      simp only [decide_eq_true_eq]
      intro hxk
      exact hmem.2 (by rw [hxk]; exact hk)
  · intro e he hnot
    unfold invalidate_cache_pattern
    simp only
    by_cases hemp : (redisKeys now store pattern).isEmpty
    · rw [if_pos hemp]; exact he
    · rw [if_neg hemp]
      exact (mem_foldl_redisDelete _ _ _).2 ⟨he, hnot⟩

/-- Witness for C9: on a concrete store, after invalidating `user:42:*` the
matching key is gone, the non-matching key survives, and the returned value
is `none`. -/
theorem C9_invalidate_witness :
    ((invalidate_cache_pattern 0
      [("user:42:q1", ⟨.cacheVal ⟨"q1", ⟨"a", [], 1, [], none⟩, none, "factual", 0, 1, 3600⟩, 100⟩),
       ("exact:q1", ⟨.cacheVal ⟨"q1", ⟨"a", [], 1, [], none⟩, none, "factual", 0, 1, 3600⟩, 100⟩)]
      "user:42:*").1.find? (fun e => e.1 = "user:42:q1")) = none
    ∧ (invalidate_cache_pattern 0
      [("user:42:q1", ⟨.cacheVal ⟨"q1", ⟨"a", [], 1, [], none⟩, none, "factual", 0, 1, 3600⟩, 100⟩),
       ("exact:q1", ⟨.cacheVal ⟨"q1", ⟨"a", [], 1, [], none⟩, none, "factual", 0, 1, 3600⟩, 100⟩)]
      "user:42:*").2 = none := by
  refine ⟨?_, ?_⟩
  · exact (C9_invalidate 0 _ "user:42:*").2.1 "user:42:q1" (by decide)
  · exact (C9_invalidate 0 _ "user:42:*").1

/-! ## Claim C3 -/

/-- Bound for a signals list: the no-signal default and the mean both lie in
the unit interval when every signal does. -/
theorem signals_if_bound (l : List ℚ) (h : ∀ x ∈ l, 0 ≤ x ∧ x ≤ 1) :
    0 ≤ (if l.isEmpty then (0.5 : ℚ) else l.sum / l.length)
    ∧ (if l.isEmpty then (0.5 : ℚ) else l.sum / l.length) ≤ 1 := by
  by_cases hemp : l.isEmpty
  · rw [if_pos hemp]
    norm_num
  · rw [if_neg hemp]
    exact mean_mem_unit l (by simpa [List.isEmpty_iff] using hemp) h

/-- C3: the aggregate confidence equals the unweighted mean of the
per-source signals that are present (RAG mean score when it has results,
`min(relationshipCount/10, 1)` when graph search ran,
`min(timelineEventCount/5, 1)` when temporal ran); it is `0.5` when no
source produced a signal; and it lies within `[0, 1]` whenever the semantic
similarity scores do. -/
theorem C3_confidence (rag : Option RagData) (kag : Option KagData)
    (temporal : Option TemporalData)
    (hscores : ∀ d, rag = some d → ∀ r ∈ d.results, 0 ≤ r.score ∧ r.score ≤ 1) :
    (calculate_confidence rag kag temporal =
      (if (confidence_signals rag kag temporal).isEmpty then (0.5 : ℚ)
       else (confidence_signals rag kag temporal).sum /
         ((confidence_signals rag kag temporal).length : ℚ)))
    ∧ 0 ≤ calculate_confidence rag kag temporal
    ∧ calculate_confidence rag kag temporal ≤ 1
    ∧ calculate_confidence none none none = (0.5 : ℚ) := by
  have hunit : ∀ x ∈ confidence_signals rag kag temporal, 0 ≤ x ∧ x ≤ 1 := by
    intro x hx
    unfold confidence_signals at hx
    rcases List.mem_append.1 hx with hx12 | hx3
    · rcases List.mem_append.1 hx12 with hx1 | hx2
      · cases rag with
        | some d =>
          simp only [rag_signal] at hx1
          by_cases hemp : (d.results.map (fun r => r.score)).isEmpty
          · rw [if_pos hemp] at hx1
            exact absurd hx1 (List.not_mem_nil x)
          · rw [if_neg hemp] at hx1
            have hxeq := List.mem_singleton.1 hx1
            subst hxeq
            exact mean_mem_unit _ (by simpa [List.isEmpty_iff] using hemp)
              (fun y hy => by
                obtain ⟨r, hr, hry⟩ := List.mem_map.1 hy
                exact hry ▸ hscores d rfl r hr)
        | none =>
          simp only [rag_signal] at hx1
          exact absurd hx1 (List.not_mem_nil x)
      · cases kag with
        | some d =>
          simp only [kag_signal] at hx2
          have hxeq := List.mem_singleton.1 hx2
          subst hxeq
          exact ⟨le_min (by positivity) (by norm_num), min_le_right _ _⟩
        | none =>
          simp only [kag_signal] at hx2
          exact absurd hx2 (List.not_mem_nil x)
    · cases temporal with
      | some d =>
        simp only [temporal_signal] at hx3
        have hxeq := List.mem_singleton.1 hx3
        subst hxeq
        exact ⟨le_min (by positivity) (by norm_num), min_le_right _ _⟩
      | none =>
        simp only [temporal_signal] at hx3
        exact absurd hx3 (List.not_mem_nil x)
  have hkey : calculate_confidence rag kag temporal =
      (if (confidence_signals rag kag temporal).isEmpty then (0.5 : ℚ)
       else (confidence_signals rag kag temporal).sum /
         ((confidence_signals rag kag temporal).length : ℚ)) := by
    cases rag <;> cases kag <;> cases temporal <;> rfl
  refine ⟨hkey, ?_, ?_, rfl⟩
  · rw [hkey]
    exact (signals_if_bound _ hunit).1
  · rw [hkey]
    exact (signals_if_bound _ hunit).2

/-- Witness for C3: for the spec scenario of three RAG hits scored 0.9, 0.8
and 0.75 and no other source, the confidence is 49/60 ≈ 0.817 and lies in
the unit interval. -/
theorem C3_confidence_witness :
    calculate_confidence (some ⟨[⟨"c1", 0.9, "t1"⟩, ⟨"c2", 0.8, "t2"⟩,
        ⟨"c3", 0.75, "t3"⟩]⟩) none none = 49 / 60
    ∧ 0 ≤ calculate_confidence (some ⟨[⟨"c1", 0.9, "t1"⟩, ⟨"c2", 0.8, "t2"⟩,
        ⟨"c3", 0.75, "t3"⟩]⟩) none none
    ∧ calculate_confidence (some ⟨[⟨"c1", 0.9, "t1"⟩, ⟨"c2", 0.8, "t2"⟩,
        ⟨"c3", 0.75, "t3"⟩]⟩) none none ≤ 1 := by
  have hs : ∀ d, (some (⟨[⟨"c1", 0.9, "t1"⟩, ⟨"c2", 0.8, "t2"⟩,
      ⟨"c3", 0.75, "t3"⟩]⟩ : RagData) = some d) → ∀ r ∈ d.results, 0 ≤ r.score ∧ r.score ≤ 1 := by
    rintro d ⟨rfl⟩ r hr
    fin_cases hr <;> constructor <;> norm_num
  refine ⟨?_, (C3_confidence _ none none hs).2.1, (C3_confidence _ none none hs).2.2.1⟩
  · norm_num [calculate_confidence]

/-! ## Claim C6 -/

/-- C6 fails as stated: when the completion collaborator returns well-formed
JSON with all retrieval flags false, `analyze_query` returns a strategy with
`use_rag`, `use_kag` and `use_temporal` all false — the at-least-one-source
invariant does not hold. -/
theorem C6_counterexample :
    (analyze_query (Except.ok
      "\x7b\"use_rag\": false, \"use_kag\": false, \"use_temporal\": false\x7d")).use_rag = false
    ∧ (analyze_query (Except.ok
      "\x7b\"use_rag\": false, \"use_kag\": false, \"use_temporal\": false\x7d")).use_kag = false
    ∧ (analyze_query (Except.ok
      "\x7b\"use_rag\": false, \"use_kag\": false, \"use_temporal\": false\x7d")).use_temporal = false := by
  exact ⟨rfl, rfl, rfl⟩

/-- C6 (amended): `analyze_query` is total in the model (it never raises
to its caller) and always returns a `QueryStrategy`; on planning failure —
the completion collaborator raising, or any exception of the `try` body,
model validation included — it returns the default strategy
(`use_rag = true`, other sources false, fallback reasoning note), and on
parsing failure — the output's brace-delimited section failing `json.loads`
— it returns the parse-error default (`use_rag = true`, other sources
false by the model defaults, fallback note).  However, well-formed
collaborator output may disable all three retrieval sources, so the
at-least-one invariant is not universal. -/
theorem C6_planner_fallback :
    (analyze_query (Except.error ()) = default_strategy_analysis_error
      ∧ default_strategy_analysis_error.use_rag = true
      ∧ default_strategy_analysis_error.use_kag = false
      ∧ default_strategy_analysis_error.use_temporal = false
      ∧ default_strategy_analysis_error.reasoning = "Default strategy due to analysis error")
    ∧ (∀ text sub, extract_braces text = some sub → parse_json sub = none →
        analyze_query (Except.ok text) =
          { use_rag := true,
            reasoning := "Parse error - using default RAG strategy" })
    ∧ (∀ text e, analyze_body (Except.ok text) = .error e →
        analyze_query (Except.ok text) = default_strategy_analysis_error) := by
  refine ⟨⟨rfl, rfl, rfl, rfl, rfl⟩, ?_, ?_⟩
  · intro text sub hx hp
    have h1 : parse_strategy text = parse_error_dict := by
      unfold parse_strategy
      rw [hx]
      show parse_extracted sub = parse_error_dict
      unfold parse_extracted
      rw [hp]
    have h2 : analyze_body (Except.ok text) = buildStrategy (parse_strategy text) := rfl
    show (match analyze_body (Except.ok text) with
      | Except.ok st => st
      | Except.error _ => default_strategy_analysis_error) = _
    rw [h2, h1]
    rfl
  · intro text e h
    show (match analyze_body (Except.ok text) with
      | Except.ok st => st
      | Except.error _ => default_strategy_analysis_error) = _
    rw [h]

/-- Witness for C6: a collaborator reply whose braces hold no valid JSON
makes `analyze_query` return the parse-error default. -/
theorem C6_planner_fallback_witness :
    analyze_query (Except.ok "\x7bnot json\x7d") =
      { use_rag := true, reasoning := "Parse error - using default RAG strategy" } :=
  C6_planner_fallback.2.1 "\x7bnot json\x7d" "\x7bnot json\x7d" rfl rfl

/-! ## Key-shape lemmas (the namespace markers make every candidate key
distinct from the semantic-embedding index key) -/

theorem exact_key_ne_semantic_store (a b : String) :
    "exact:" ++ a ≠ "semantic_embeddings:" ++ b := by
  intro h
  have h2 := congrArg String.data h
  simp only [String.data_append] at h2
  simp at h2

theorem normalized_key_ne_semantic_store (a b : String) :
    "normalized:" ++ a ≠ "semantic_embeddings:" ++ b := by
  intro h
  have h2 := congrArg String.data h
  simp only [String.data_append] at h2
  simp at h2

theorem user_key_ne_semantic_store (u a b : String) :
    "user:" ++ u ++ ":" ++ a ≠ "semantic_embeddings:" ++ b := by
  intro h
  have h2 := congrArg String.data h
  simp only [String.data_append] at h2
  simp at h2

theorem session_key_ne_semantic_store (u a b : String) :
    "session:" ++ u ++ ":" ++ a ≠ "semantic_embeddings:" ++ b := by
  intro h
  have h2 := congrArg String.data h
  simp only [String.data_append] at h2
  simp at h2

theorem semantic_key_ne_semantic_store (a b : String) :
    "semantic:" ++ a ≠ "semantic_embeddings:" ++ b := by
  intro h
  have h2 := congrArg String.data h
  simp only [String.data_append] at h2
  simp at h2

theorem generate_cache_keys_ne_semantic_store (query : String) (ctx : Option UserCtx)
    (q2 : String) :
    ∀ k ∈ generate_cache_keys query ctx, k ≠ "semantic_embeddings:" ++ q2 := by
  intro k hk
  unfold generate_cache_keys at hk
  rcases List.mem_append.1 hk with hk3 | hsem
  · rcases List.mem_append.1 hk3 with hk2 | hsess
    · rcases List.mem_append.1 hk2 with hbase | huser
      · rcases List.mem_cons.1 hbase with h1 | h1'
        · exact h1 ▸ exact_key_ne_semantic_store _ _
        · rcases List.mem_cons.1 h1' with h2 | h2'
          · exact h2 ▸ normalized_key_ne_semantic_store _ _
          · exact absurd h2' (List.not_mem_nil k)
      · cases ctx with
        | none => exact absurd huser (List.not_mem_nil k)
        | some uc =>
          have huser2 : k ∈ (match uc.user_id with
            | some u => if strTruthy (some u) = true then ["user:" ++ u ++ ":" ++ hash_text query] else []
            | none => ([] : List String)) := huser
          cases huid : uc.user_id with
          | none =>
            rw [huid] at huser2
            exact absurd huser2 (List.not_mem_nil k)
          | some u =>
            rw [huid] at huser2
            have huser3 : k ∈ (if strTruthy (some u) = true
                then ["user:" ++ u ++ ":" ++ hash_text query] else []) := huser2
            by_cases ht : strTruthy (some u) = true
            · rw [if_pos ht] at huser3
              have hke := List.mem_singleton.1 huser3
              exact hke ▸ user_key_ne_semantic_store _ _ _
            · rw [if_neg ht] at huser3
              exact absurd huser3 (List.not_mem_nil k)
    · cases ctx with
      | none => exact absurd hsess (List.not_mem_nil k)
      | some uc =>
        have hsess2 : k ∈ (match uc.session_id with
          | some u => if strTruthy (some u) = true then ["session:" ++ u ++ ":" ++ hash_text query] else []
          | none => ([] : List String)) := hsess
        cases hsid : uc.session_id with
        | none =>
          rw [hsid] at hsess2
          exact absurd hsess2 (List.not_mem_nil k)
        | some u =>
          rw [hsid] at hsess2
          have hsess3 : k ∈ (if strTruthy (some u) = true
              then ["session:" ++ u ++ ":" ++ hash_text query] else []) := hsess2
          by_cases ht : strTruthy (some u) = true
          · rw [if_pos ht] at hsess3
            have hke := List.mem_singleton.1 hsess3
            exact hke ▸ session_key_ne_semantic_store _ _ _
          · rw [if_neg ht] at hsess3
            exact absurd hsess3 (List.not_mem_nil k)
  · cases hsh : get_semantic_hash query with
    | none =>
      rw [hsh] at hsem
      exact absurd hsem (List.not_mem_nil k)
    | some h =>
      rw [hsh] at hsem
      have hke := List.mem_singleton.1 hsem
      exact hke ▸ semantic_key_ne_semantic_store _ _

/-! ## Raw-entry lemmas for writes -/

theorem find?_redisSet_self (st : Store) (k : String) (v : StoreVal) (e : ℤ) :
    (redisSet st k v e).find? (fun x => x.1 = k) = some (k, ⟨v, e⟩) := by
  unfold redisSet
  exact List.find?_cons_of_pos _ (by simp)

theorem find?_redisSet_other (st : Store) (k0 k : String) (v : StoreVal) (e : ℤ)
    (hk : k ≠ k0) :
    (redisSet st k0 v e).find? (fun x => x.1 = k) = st.find? (fun x => x.1 = k) := by
  unfold redisSet
  rw [List.find?_cons_of_neg _ (by simpa using fun h => hk h.symm)]
  exact find?_filter_of_imp _ _ _ (fun x hx => by
    simp only [decide_eq_true_eq] at hx ⊢
    rw [hx]; exact fun h => hk h)

theorem find?_foldl_set_not_mem (ks : List String) (st : Store) (v : StoreVal) (e : ℤ)
    (k : String) (hk : k ∉ ks) :
    ((ks.foldl (fun s key => redisSet s key v e) st).find? (fun x => x.1 = k)) =
      st.find? (fun x => x.1 = k) := by
  induction ks generalizing st with
  | nil => rfl
  | cons k0 ks ih =>
    simp only [List.foldl_cons]
    rw [ih _ (fun h => hk (List.mem_cons.2 (Or.inr h)))]
    exact find?_redisSet_other st k0 k v e (fun h => hk (List.mem_cons.2 (Or.inl h)))

theorem find?_foldl_set_mem (ks : List String) (st : Store) (v : StoreVal) (e : ℤ)
    (k : String) (hk : k ∈ ks) :
    ((ks.foldl (fun s key => redisSet s key v e) st).find? (fun x => x.1 = k)) =
      some (k, ⟨v, e⟩) := by
  induction ks generalizing st with
  | nil => exact absurd hk (List.not_mem_nil k)
  | cons k0 ks ih =>
    simp only [List.foldl_cons]
    by_cases hmem : k ∈ ks
    · exact ih _ hmem
    · have hk0 : k = k0 := by
        rcases List.mem_cons.1 hk with h | h
        · exact h
        · exact absurd h hmem
      subst hk0
      rw [find?_foldl_set_not_mem ks _ v e k hmem]
      exact find?_redisSet_self st k v e

/-! ## Case equations for `check_cache` -/

theorem check_cache_of_probe_some (cfg : CacheCfg) (now : ℤ) (store : Store)
    (query : String) (ctx : Option UserCtx) (embedO : Except Unit (List ℚ))
    (d : CacheData) (k : String)
    (h : (probe_keys cfg now (generate_cache_keys query ctx) store).1 = some (d, k)) :
    check_cache cfg now store query ctx embedO =
      (some (.keyHit d k), (probe_keys cfg now (generate_cache_keys query ctx) store).2) := by
  simp only [check_cache]
  rw [h]

theorem check_cache_of_probe_none_sim (cfg : CacheCfg) (now : ℤ) (store : Store)
    (query : String) (ctx : Option UserCtx) (embedO : Except Unit (List ℚ))
    (r : SimResult)
    (h1 : (probe_keys cfg now (generate_cache_keys query ctx) store).1 = none)
    (h2 : find_similar_cached_query now
        (probe_keys cfg now (generate_cache_keys query ctx) store).2 embedO 0.85 = some r) :
    check_cache cfg now store query ctx embedO =
      (some (.simHit r.data r.similarity_score r.original_query),
       (probe_keys cfg now (generate_cache_keys query ctx) store).2) := by
  simp only [check_cache]
  rw [h1, h2]

theorem check_cache_of_probe_none_nosim (cfg : CacheCfg) (now : ℤ) (store : Store)
    (query : String) (ctx : Option UserCtx) (embedO : Except Unit (List ℚ))
    (h1 : (probe_keys cfg now (generate_cache_keys query ctx) store).1 = none)
    (h2 : find_similar_cached_query now
        (probe_keys cfg now (generate_cache_keys query ctx) store).2 embedO 0.85 = none) :
    check_cache cfg now store query ctx embedO =
      (none, (probe_keys cfg now (generate_cache_keys query ctx) store).2) := by
  simp only [check_cache]
  rw [h1, h2]

/-! ## Claim C4 -/

/-- C4: `update_cache` writes the same record — the one `cache_data` dict,
with the one TTL chosen from the `query_type` table at write time — under
every generated candidate key, so any later lookup of that query with the
same context that hits via a candidate key (exact, normalized, user-scoped,
session-scoped or semantic) hands back exactly that record. -/
theorem C4_multikey_consistency (cfg : CacheCfg) (now : ℤ) (store : Store) (query : String)
    (result : ResultPayload) (ctx : Option UserCtx) (query_type : String)
    (embedO : Except Unit (List ℚ)) :
    (∀ k ∈ generate_cache_keys query ctx,
      (update_cache cfg now store query result ctx query_type embedO).find?
          (fun x => x.1 = k) =
        some (k, ⟨.cacheVal (mkCacheData cfg now query result ctx query_type),
          now + ttl_for cfg query_type⟩))
    ∧ (∀ (now2 : ℤ) (embedO2 : Except Unit (List ℚ)) (d : CacheData) (k : String),
        (check_cache cfg now2 (update_cache cfg now store query result ctx query_type embedO)
            query ctx embedO2).1 = some (.keyHit d k) →
        d = mkCacheData cfg now query result ctx query_type) := by
  have hpart1 : ∀ k ∈ generate_cache_keys query ctx,
      (update_cache cfg now store query result ctx query_type embedO).find?
          (fun x => x.1 = k) =
        some (k, ⟨.cacheVal (mkCacheData cfg now query result ctx query_type),
          now + ttl_for cfg query_type⟩) := by
    intro k hk
    unfold update_cache
    cases embedO with
    | error e =>
      show ((generate_cache_keys query ctx).foldl
        (fun s key => redisSet s key
          (.cacheVal (mkCacheData cfg now query result ctx query_type))
          (now + ttl_for cfg query_type)) store).find? (fun x => x.1 = k) = _
      exact find?_foldl_set_mem _ _ _ _ _ hk
    | ok emb =>
      show (redisSet ((generate_cache_keys query ctx).foldl
          (fun s key => redisSet s key
            (.cacheVal (mkCacheData cfg now query result ctx query_type))
            (now + ttl_for cfg query_type)) store)
          ("semantic_embeddings:" ++ hash_text query)
          (.semVal ⟨query, emb, mkCacheData cfg now query result ctx query_type, now⟩)
          (now + cfg.analytical)).find? (fun x => x.1 = k) = _
      rw [find?_redisSet_other _ _ _ _ _
        (generate_cache_keys_ne_semantic_store query ctx (hash_text query) k hk)]
      exact find?_foldl_set_mem _ _ _ _ _ hk
  refine ⟨hpart1, ?_⟩
  intro now2 embedO2 d k h
  have hinv : ∀ k2 ∈ generate_cache_keys query ctx, ∀ dd,
      redisGet now2 (update_cache cfg now store query result ctx query_type embedO) k2 =
        some (.cacheVal dd) → dd = mkCacheData cfg now query result ctx query_type := by
    intro k2 hk2 dd hget
    unfold redisGet at hget
    rw [hpart1 k2 hk2] at hget
    have hget2 : (if now2 < now + ttl_for cfg query_type
        then some (StoreVal.cacheVal (mkCacheData cfg now query result ctx query_type))
        else none) = some (StoreVal.cacheVal dd) := hget
    by_cases hlt : now2 < now + ttl_for cfg query_type
    · rw [if_pos hlt] at hget2
      have hsv := Option.some.inj hget2
      cases hsv
      rfl
    · rw [if_neg hlt] at hget2
      exact absurd hget2 (by simp)
  cases hp : (probe_keys cfg now2 (generate_cache_keys query ctx)
      (update_cache cfg now store query result ctx query_type embedO)).1 with
  | some p =>
    obtain ⟨d0, k0⟩ := p
    rw [check_cache_of_probe_some cfg now2 _ query ctx embedO2 d0 k0 hp] at h
    have hinj := Option.some.inj h
    have hd0 : d0 = d := by
      cases hinj
      rfl
    exact hd0 ▸ probe_keys_val_inv cfg now2 _ _ _ hinv d0 k0 hp
  | none =>
    cases hs : find_similar_cached_query now2
        (probe_keys cfg now2 (generate_cache_keys query ctx)
          (update_cache cfg now store query result ctx query_type embedO)).2 embedO2 0.85 with
    | some r =>
      rw [check_cache_of_probe_none_sim cfg now2 _ query ctx embedO2 r hp hs] at h
      exact absurd (Option.some.inj h) (by simp)
    | none =>
      rw [check_cache_of_probe_none_nosim cfg now2 _ query ctx embedO2 hp hs] at h
      exact absurd h (by simp)

/-- Witness for C4: storing an answer for "alpha beta" with a user context
writes the record under the user-scoped key with the factual TTL. -/
theorem C4_multikey_consistency_witness :
    (update_cache {} 0 [] "alpha beta" ⟨"ans", [], 0.9, ["RAG"], none⟩
        (some ⟨some "42", none⟩) "factual" (.ok [1, 2])).find?
        (fun x => x.1 = "user:42:alpha beta") =
      some ("user:42:alpha beta",
        ⟨.cacheVal (mkCacheData {} 0 "alpha beta" ⟨"ans", [], 0.9, ["RAG"], none⟩
          (some ⟨some "42", none⟩) "factual"), 0 + ttl_for {} "factual"⟩) :=
  (C4_multikey_consistency {} 0 [] "alpha beta" ⟨"ans", [], 0.9, ["RAG"], none⟩
    (some ⟨some "42", none⟩) "factual" (.ok [1, 2])).1 "user:42:alpha beta" (by decide)

/-! ## Claim C5 -/

theorem probe_keys_cfg_indep (cfg cfg2 : CacheCfg) (now : ℤ) (ks : List String) (st : Store) :
    probe_keys cfg now ks st = probe_keys cfg2 now ks st := by
  induction ks generalizing st with
  | nil => rfl
  | cons k ks ih =>
    cases hg : redisGet now st k with
    | none =>
      rw [probe_keys_cons_none cfg now k ks st hg,
        probe_keys_cons_none cfg2 now k ks st hg]
      exact ih st
    | some v =>
      cases v with
      | cacheVal d =>
        by_cases hf : is_fresh cfg now d
        · have hf2 : is_fresh cfg2 now d := hf
          rw [probe_keys_cons_fresh cfg now k ks st d hg hf,
            probe_keys_cons_fresh cfg2 now k ks st d hg hf2]
        · have hf2 : ¬ is_fresh cfg2 now d := hf
          rw [probe_keys_cons_stale cfg now k ks st d hg hf,
            probe_keys_cons_stale cfg2 now k ks st d hg hf2]
          exact ih _
      | semVal s =>
        rw [probe_keys_cons_sem cfg now k ks st s hg,
          probe_keys_cons_sem cfg2 now k ks st s hg]
        exact ih _

theorem check_cache_snd (cfg : CacheCfg) (now : ℤ) (store : Store) (query : String)
    (ctx : Option UserCtx) (embedO : Except Unit (List ℚ)) :
    (check_cache cfg now store query ctx embedO).2 =
      (probe_keys cfg now (generate_cache_keys query ctx) store).2 := by
  cases hp : (probe_keys cfg now (generate_cache_keys query ctx) store).1 with
  | some p =>
    obtain ⟨d, k⟩ := p
    rw [check_cache_of_probe_some cfg now store query ctx embedO d k hp]
  | none =>
    cases hs : find_similar_cached_query now
        (probe_keys cfg now (generate_cache_keys query ctx) store).2 embedO 0.85 with
    | some r =>
      rw [check_cache_of_probe_none_sim cfg now store query ctx embedO r hp hs]
    | none =>
      rw [check_cache_of_probe_none_nosim cfg now store query ctx embedO hp hs]

/-- C5: `check_cache` probes the candidate keys in their fixed generation
order (exact, normalized, user-scoped, session-scoped, semantic); a found
record is fresh exactly when `now - cached_at` is below the `ttl` stored in
the record at write time, independent of the current TTL configuration (so
configuration changes never alter an existing record's effective TTL); the
first key holding a fresh record wins and the record is returned tagged with
that key; and when no candidate key holds a fresh record, every candidate
key that held a stale record has been deleted from the returned store. -/
theorem C5_probe_order (cfg cfg2 : CacheCfg) (now : ℤ) (store : Store) (query : String)
    (ctx : Option UserCtx) (embedO : Except Unit (List ℚ)) :
    (∀ d, is_fresh cfg now d = decide (now - d.cached_at < d.ttl))
    ∧ check_cache cfg now store query ctx embedO =
        check_cache cfg2 now store query ctx embedO
    ∧ (∀ d k,
        (generate_cache_keys query ctx).findSome? (probe_spec cfg now store) = some (d, k) →
        (check_cache cfg now store query ctx embedO).1 = some (.keyHit d k))
    ∧ ((generate_cache_keys query ctx).findSome? (probe_spec cfg now store) = none →
        ∀ k ∈ generate_cache_keys query ctx,
          redisGet now (check_cache cfg now store query ctx embedO).2 k = none) := by
  refine ⟨fun d => rfl, ?_, ?_, ?_⟩
  · simp only [check_cache]
    rw [probe_keys_cfg_indep cfg cfg2 now (generate_cache_keys query ctx) store]
  · intro d k h
    have hp : (probe_keys cfg now (generate_cache_keys query ctx) store).1 = some (d, k) := by
      rw [probe_keys_fst]
      exact h
    rw [check_cache_of_probe_some cfg now store query ctx embedO d k hp]
  · intro h k hk
    have hp : (probe_keys cfg now (generate_cache_keys query ctx) store).1 = none := by
      rw [probe_keys_fst]
      exact h
    rw [check_cache_snd]
    exact probe_keys_none_clears cfg now (generate_cache_keys query ctx) store hp k hk

/-- Witness for C5: with a record at the exact key that is live in Redis but
stale by its own stored TTL, and a fresh record at the normalized key, the
lookup skips the stale record, returns the fresh one tagged
`normalized:...`, and has deleted the stale exact-key entry. -/
theorem C5_probe_order_witness :
    (check_cache {} 10
      [("exact:Query A", ⟨.cacheVal ⟨"Query A", ⟨"old", [], 1, [], none⟩, none,
          "temporal", 0, 1, 5⟩, 100⟩),
       ("normalized:query a", ⟨.cacheVal ⟨"query a", ⟨"new", [], 1, [], none⟩, none,
          "factual", 0, 1, 3600⟩, 100⟩)]
      "Query A" none (.error ())).1 =
      some (.keyHit ⟨"query a", ⟨"new", [], 1, [], none⟩, none, "factual", 0, 1, 3600⟩
        "normalized:query a") :=
  (C5_probe_order {} {} 10
    [("exact:Query A", ⟨.cacheVal ⟨"Query A", ⟨"old", [], 1, [], none⟩, none,
        "temporal", 0, 1, 5⟩, 100⟩),
     ("normalized:query a", ⟨.cacheVal ⟨"query a", ⟨"new", [], 1, [], none⟩, none,
        "factual", 0, 1, 3600⟩, 100⟩)]
    "Query A" none (.error ())).2.2.1
    ⟨"query a", ⟨"new", [], 1, [], none⟩, none, "factual", 0, 1, 3600⟩
    "normalized:query a" rfl

/-! ## Claim C8 -/

/-- C8: the similarity fallback bypasses freshness.  First, `update_cache`
indexes the query embedding under `semantic_embeddings:<hash>` with the
*analytical*-tier TTL whatever the record's own `query_type`.  Second, when
every candidate key misses and the similarity scan resolves a record,
`check_cache` returns that record with no freshness check — in particular it
does so even when the record is expired by its own stored TTL
(`now - cached_at ≥ ttl`). -/
theorem C8_stale_similarity_fallback :
    (∀ (cfg : CacheCfg) (now : ℤ) (store : Store) (query : String)
        (result : ResultPayload) (ctx : Option UserCtx) (query_type : String)
        (emb : List ℚ),
      (update_cache cfg now store query result ctx query_type (.ok emb)).find?
          (fun x => x.1 = "semantic_embeddings:" ++ hash_text query) =
        some ("semantic_embeddings:" ++ hash_text query,
          ⟨.semVal ⟨query, emb, mkCacheData cfg now query result ctx query_type, now⟩,
           now + cfg.analytical⟩))
    ∧ (∀ (cfg : CacheCfg) (now : ℤ) (store : Store) (query : String)
        (ctx : Option UserCtx) (embedO : Except Unit (List ℚ)) (r : SimResult),
      (∀ k ∈ generate_cache_keys query ctx, redisGet now store k = none) →
      find_similar_cached_query now store embedO 0.85 = some r →
      ¬ (now - r.data.cached_at < r.data.ttl) →
      (check_cache cfg now store query ctx embedO).1 =
        some (.simHit r.data r.similarity_score r.original_query)) := by
  constructor
  · intro cfg now store query result ctx query_type emb
    unfold update_cache
    show (redisSet ((generate_cache_keys query ctx).foldl
        (fun s key => redisSet s key
          (.cacheVal (mkCacheData cfg now query result ctx query_type))
          (now + ttl_for cfg query_type)) store)
        ("semantic_embeddings:" ++ hash_text query)
        (.semVal ⟨query, emb, mkCacheData cfg now query result ctx query_type, now⟩)
        (now + cfg.analytical)).find?
        (fun x => x.1 = "semantic_embeddings:" ++ hash_text query) = _
    exact find?_redisSet_self _ _ _ _
  · intro cfg now store query ctx embedO r hmiss hsim hstale
    have hpp : probe_keys cfg now (generate_cache_keys query ctx) store = (none, store) :=
      probe_keys_all_none cfg now _ store hmiss
    have hp1 : (probe_keys cfg now (generate_cache_keys query ctx) store).1 = none := by
      rw [hpp]
    have hsim2 : find_similar_cached_query now
        (probe_keys cfg now (generate_cache_keys query ctx) store).2 embedO 0.85 = some r := by
      rw [hpp]
      exact hsim
    rw [check_cache_of_probe_none_sim cfg now store query ctx embedO r hp1 hsim2]

/-- Witness for C8: a record cached at time 0 with the temporal TTL (900 s)
is expired at time 1000 and its candidate keys have lapsed in Redis, but its
embedding-index entry (analytical TTL, 1800 s) is still live; the lookup
resolves it by similarity (cosine 1 for the same embedding) and returns the
expired record. -/
theorem C8_stale_similarity_fallback_witness :
    (check_cache {} 1000
      [("semantic_embeddings:alpha beta",
        ⟨.semVal ⟨"alpha beta", [3, 4],
          ⟨"alpha beta", ⟨"old", [], 1, [], none⟩, none, "temporal", 0, 1, 900⟩, 0⟩, 1800⟩),
       ("exact:alpha beta",
        ⟨.cacheVal ⟨"alpha beta", ⟨"old", [], 1, [], none⟩, none, "temporal", 0, 1, 900⟩, 900⟩),
       ("normalized:alpha beta",
        ⟨.cacheVal ⟨"alpha beta", ⟨"old", [], 1, [], none⟩, none, "temporal", 0, 1, 900⟩, 900⟩),
       ("semantic:alpha beta",
        ⟨.cacheVal ⟨"alpha beta", ⟨"old", [], 1, [], none⟩, none, "temporal", 0, 1, 900⟩, 900⟩)]
      "alpha beta" none (.ok [3, 4])).1 =
      some (.simHit ⟨"alpha beta", ⟨"old", [], 1, [], none⟩, none, "temporal", 0, 1, 900⟩
        1 "alpha beta")
    ∧ ¬ ((1000 : ℤ) - 0 < 900) := by
  have hsum : sumSq [3, 4] = (25 : ℚ) := by norm_num [sumSq]
  have hdot : dotQ [3, 4] [3, 4] = (25 : ℚ) := by norm_num [dotQ]
  have hsqrt : Real.sqrt ((sumSq [3, 4] : ℚ) : ℝ) = 5 := by
    rw [hsum, show (((25 : ℚ) : ℝ)) = (5 : ℝ) ^ 2 by push_cast; norm_num]
    exact Real.sqrt_sq (by norm_num)
  have hcos : cosine_similarity [3, 4] [3, 4] = 1 := by
    unfold cosine_similarity
    rw [if_neg (by norm_num)]
    rw [hsqrt, hdot]
    rw [if_neg (by norm_num)]
    push_cast
    norm_num
  have hscan : scan_semantic 1000
      [("semantic_embeddings:alpha beta",
        ⟨.semVal ⟨"alpha beta", [3, 4],
          ⟨"alpha beta", ⟨"old", [], 1, [], none⟩, none, "temporal", 0, 1, 900⟩, 0⟩, 1800⟩),
       ("exact:alpha beta",
        ⟨.cacheVal ⟨"alpha beta", ⟨"old", [], 1, [], none⟩, none, "temporal", 0, 1, 900⟩, 900⟩),
       ("normalized:alpha beta",
        ⟨.cacheVal ⟨"alpha beta", ⟨"old", [], 1, [], none⟩, none, "temporal", 0, 1, 900⟩, 900⟩),
       ("semantic:alpha beta",
        ⟨.cacheVal ⟨"alpha beta", ⟨"old", [], 1, [], none⟩, none, "temporal", 0, 1, 900⟩, 900⟩)] =
      [⟨"alpha beta", [3, 4],
        ⟨"alpha beta", ⟨"old", [], 1, [], none⟩, none, "temporal", 0, 1, 900⟩, 0⟩] := rfl
  have hsim : find_similar_cached_query 1000
      [("semantic_embeddings:alpha beta",
        ⟨.semVal ⟨"alpha beta", [3, 4],
          ⟨"alpha beta", ⟨"old", [], 1, [], none⟩, none, "temporal", 0, 1, 900⟩, 0⟩, 1800⟩),
       ("exact:alpha beta",
        ⟨.cacheVal ⟨"alpha beta", ⟨"old", [], 1, [], none⟩, none, "temporal", 0, 1, 900⟩, 900⟩),
       ("normalized:alpha beta",
        ⟨.cacheVal ⟨"alpha beta", ⟨"old", [], 1, [], none⟩, none, "temporal", 0, 1, 900⟩, 900⟩),
       ("semantic:alpha beta",
        ⟨.cacheVal ⟨"alpha beta", ⟨"old", [], 1, [], none⟩, none, "temporal", 0, 1, 900⟩, 900⟩)]
      (.ok [3, 4]) 0.85 =
      some ⟨⟨"alpha beta", ⟨"old", [], 1, [], none⟩, none, "temporal", 0, 1, 900⟩,
        1, "alpha beta"⟩ := by
    unfold find_similar_cached_query
    rw [hscan]
    show find_similar_scan [3, 4] 0.85 [⟨"alpha beta", [3, 4],
      ⟨"alpha beta", ⟨"old", [], 1, [], none⟩, none, "temporal", 0, 1, 900⟩, 0⟩] none 0 = _
    unfold find_similar_scan
    rw [if_pos (by rw [hcos]; norm_num : cosine_similarity [3, 4] [3, 4] > (0.85 : ℝ)
      ∧ cosine_similarity [3, 4] [3, 4] > (0 : ℝ))]
    unfold find_similar_scan
    rw [hcos]
  refine ⟨?_, by decide⟩
  exact C8_stale_similarity_fallback.2 {} 1000 _ "alpha beta" none (.ok [3, 4])
    ⟨⟨"alpha beta", ⟨"old", [], 1, [], none⟩, none, "temporal", 0, 1, 900⟩, 1, "alpha beta"⟩
    (by
      intro k hk
      have hkeys : generate_cache_keys "alpha beta" none =
          ["exact:alpha beta", "normalized:alpha beta", "semantic:alpha beta"] := rfl
      rw [hkeys] at hk
      simp only [List.mem_cons, List.not_mem_nil, or_false] at hk
      rcases hk with rfl | rfl | rfl <;> rfl)
    hsim (by decide)

/-! ## Claim C7 -/

theorem find_similar_scan_all_le (qEmb : List ℚ) (t : ℝ) (l : List SemanticData)
    (best : Option SimResult) (bSim : ℝ)
    (h : ∀ s ∈ l, cosine_similarity qEmb s.embedding ≤ t) :
    find_similar_scan qEmb t l best bSim = best := by
  induction l generalizing best bSim with
  | nil => rfl
  | cons e rest ih =>
    show (if cosine_similarity qEmb e.embedding > t
        ∧ cosine_similarity qEmb e.embedding > bSim then
      find_similar_scan qEmb t rest
        (some ⟨e.cache_data, cosine_similarity qEmb e.embedding, e.query⟩)
        (cosine_similarity qEmb e.embedding)
    else find_similar_scan qEmb t rest best bSim) = best
    rw [if_neg (fun hc => absurd hc.1 (not_lt.2 (h e (by simp))))]
    exact ih best bSim (fun s hs => h s (by simp [hs]))

/-- C7 (amended): the similarity fallback resolves a stored record exactly
when the cosine similarity *strictly exceeds* the fixed threshold 0.85 (and
is the best among the scanned sample): when every scanned similarity is at
most the threshold nothing is returned; on a single-record sample, a
similarity strictly above 0.85 returns that record annotated with the
similarity score and the original query text; and any two query embeddings
both strictly above 0.85 against that record both resolve to it. -/
theorem C7_similarity_threshold :
    (∀ (now : ℤ) (store : Store) (qEmb : List ℚ),
      (∀ s ∈ scan_semantic now store, cosine_similarity qEmb s.embedding ≤ 0.85) →
      find_similar_cached_query now store (.ok qEmb) 0.85 = none)
    ∧ (∀ (now : ℤ) (store : Store) (qEmb : List ℚ) (e : SemanticData),
        scan_semantic now store = [e] →
        cosine_similarity qEmb e.embedding > 0.85 →
        find_similar_cached_query now store (.ok qEmb) 0.85 =
          some ⟨e.cache_data, cosine_similarity qEmb e.embedding, e.query⟩)
    ∧ (∀ (now : ℤ) (store : Store) (q1 q2 : List ℚ) (e : SemanticData),
        scan_semantic now store = [e] →
        cosine_similarity q1 e.embedding > 0.85 →
        cosine_similarity q2 e.embedding > 0.85 →
        (find_similar_cached_query now store (.ok q1) 0.85 =
          some ⟨e.cache_data, cosine_similarity q1 e.embedding, e.query⟩)
        ∧ (find_similar_cached_query now store (.ok q2) 0.85 =
          some ⟨e.cache_data, cosine_similarity q2 e.embedding, e.query⟩)) := by
  have hsingle : ∀ (now : ℤ) (store : Store) (qEmb : List ℚ) (e : SemanticData),
      scan_semantic now store = [e] →
      cosine_similarity qEmb e.embedding > 0.85 →
      find_similar_cached_query now store (.ok qEmb) 0.85 =
        some ⟨e.cache_data, cosine_similarity qEmb e.embedding, e.query⟩ := by
    intro now store qEmb e hscan hgt
    unfold find_similar_cached_query
    rw [hscan]
    show (if cosine_similarity qEmb e.embedding > (0.85 : ℝ)
        ∧ cosine_similarity qEmb e.embedding > (0 : ℝ) then
      find_similar_scan qEmb 0.85 []
        (some ⟨e.cache_data, cosine_similarity qEmb e.embedding, e.query⟩)
        (cosine_similarity qEmb e.embedding)
    else find_similar_scan qEmb 0.85 [] none 0) = _
    rw [if_pos ⟨hgt, lt_trans (by norm_num) hgt⟩]
    rfl
  refine ⟨?_, hsingle, ?_⟩
  · intro now store qEmb hle
    unfold find_similar_cached_query
    exact find_similar_scan_all_le qEmb 0.85 (scan_semantic now store) none 0 hle
  · intro now store q1 q2 e hscan h1 h2
    exact ⟨hsingle now store q1 e hscan h1, hsingle now store q2 e hscan h2⟩

/-- C7 fails as stated at the boundary: a query embedding whose cosine
similarity against the stored record is exactly 0.85 does not resolve to it
— the code's comparison is strict (`similarity > similarity_threshold`),
while the claim requires resolution at similarity ≥ 0.85. -/
theorem C7_counterexample :
    cosine_similarity [1, 0, 0, 0, 0] [17, 10, 3, 1, 1] = 0.85
    ∧ find_similar_cached_query 0
      [("semantic_embeddings:q",
        ⟨.semVal ⟨"q", [17, 10, 3, 1, 1],
          ⟨"q", ⟨"a", [], 1, [], none⟩, none, "factual", 0, 1, 3600⟩, 0⟩, 100⟩)]
      (.ok [1, 0, 0, 0, 0]) 0.85 = none := by
  have hsum1 : sumSq [1, 0, 0, 0, 0] = (1 : ℚ) := by norm_num [sumSq]
  have hsum2 : sumSq [17, 10, 3, 1, 1] = (400 : ℚ) := by norm_num [sumSq]
  have hdot : dotQ [1, 0, 0, 0, 0] [17, 10, 3, 1, 1] = (17 : ℚ) := by norm_num [dotQ]
  have hsqrt1 : Real.sqrt ((sumSq [1, 0, 0, 0, 0] : ℚ) : ℝ) = 1 := by
    rw [hsum1]
    norm_num
  have hsqrt2 : Real.sqrt ((sumSq [17, 10, 3, 1, 1] : ℚ) : ℝ) = 20 := by
    rw [hsum2, show (((400 : ℚ) : ℝ)) = (20 : ℝ) ^ 2 by push_cast; norm_num]
    exact Real.sqrt_sq (by norm_num)
  have hcos : cosine_similarity [1, 0, 0, 0, 0] [17, 10, 3, 1, 1] = 0.85 := by
    unfold cosine_similarity
    rw [if_neg (by norm_num)]
    rw [hsqrt1, hsqrt2, hdot]
    rw [if_neg (by norm_num)]
    push_cast
    norm_num
  refine ⟨hcos, ?_⟩
  have hscan : scan_semantic 0
      [("semantic_embeddings:q",
        ⟨.semVal ⟨"q", [17, 10, 3, 1, 1],
          ⟨"q", ⟨"a", [], 1, [], none⟩, none, "factual", 0, 1, 3600⟩, 0⟩, 100⟩)] =
      [⟨"q", [17, 10, 3, 1, 1],
        ⟨"q", ⟨"a", [], 1, [], none⟩, none, "factual", 0, 1, 3600⟩, 0⟩] := rfl
  unfold find_similar_cached_query
  rw [hscan]
  exact find_similar_scan_all_le [1, 0, 0, 0, 0] 0.85 _ none 0
    (fun s hs => by
      have hse := List.mem_singleton.1 hs
      subst hse
      rw [hcos])

/-- Witness for C7: with one stored record of embedding `[3,4]`, a query
with the identical embedding (cosine similarity 1 > 0.85) resolves to it,
annotated with the score and the original query text. -/
theorem C7_similarity_threshold_witness :
    find_similar_cached_query 0
      [("semantic_embeddings:alpha beta",
        ⟨.semVal ⟨"alpha beta", [3, 4],
          ⟨"alpha beta", ⟨"ans", [], 1, [], none⟩, none, "factual", 0, 1, 3600⟩, 0⟩, 100⟩)]
      (.ok [3, 4]) 0.85 =
      some ⟨⟨"alpha beta", ⟨"ans", [], 1, [], none⟩, none, "factual", 0, 1, 3600⟩,
        cosine_similarity [3, 4] [3, 4], "alpha beta"⟩ :=
  C7_similarity_threshold.2.1 0
    [("semantic_embeddings:alpha beta",
      ⟨.semVal ⟨"alpha beta", [3, 4],
        ⟨"alpha beta", ⟨"ans", [], 1, [], none⟩, none, "factual", 0, 1, 3600⟩, 0⟩, 100⟩)]
    [3, 4]
    ⟨"alpha beta", [3, 4],
      ⟨"alpha beta", ⟨"ans", [], 1, [], none⟩, none, "factual", 0, 1, 3600⟩, 0⟩
    rfl
    (by
      have hsum : sumSq [3, 4] = (25 : ℚ) := by norm_num [sumSq]
      have hdot : dotQ [3, 4] [3, 4] = (25 : ℚ) := by norm_num [dotQ]
      have hsqrt : Real.sqrt ((sumSq [3, 4] : ℚ) : ℝ) = 5 := by
        rw [hsum, show (((25 : ℚ) : ℝ)) = (5 : ℝ) ^ 2 by push_cast; norm_num]
        exact Real.sqrt_sq (by norm_num)
      show cosine_similarity [3, 4] [3, 4] > (0.85 : ℝ)
      unfold cosine_similarity
      rw [if_neg (by norm_num)]
      rw [hsqrt, hdot]
      rw [if_neg (by norm_num)]
      push_cast
      norm_num)

/-! ## Claim C1 -/

/-- C1 (amended): when one retrieval collaborator fails while the others
succeed, the failure is caught inside the failing sub-agent and contributes
an empty result, and `process_query` returns a normal response; but
`strategy_used` records the *attempted* strategies — with graph search
enabled and failing while semantic search succeeds it is
`["RAG", "KAG"]`, not `["RAG"]` — and the answer is non-empty provided the
synthesis collaborator fails (fixed apology) or returns non-empty text. -/
theorem C1_failure_isolated (cfg : CacheCfg) (now : ℤ) (elapsed : ℚ) (store : Store)
    (req : QueryRequest) (co : Collabs) (rd : RagData)
    (hmiss : req.use_cache = true →
      unified_check_cache cfg now store req co.embedOutcome = .ok (none, store))
    (hrag_flag : (analyze_query co.planOutcome).use_rag = true)
    (hkag_flag : (analyze_query co.planOutcome).use_kag = true)
    (htmp_flag : (analyze_query co.planOutcome).use_temporal = false)
    (hkag : co.kagOutcome = .error ())
    (hrag : co.ragOutcome = .ok rd)
    (hsynth : ∀ t, co.synthOutcome = .ok t → t ≠ "") :
    ∃ resp store2, process_query cfg now elapsed store req co = .ok (resp, store2)
      ∧ resp.strategy_used = ["RAG", "KAG"]
      ∧ resp.answer ≠ ""
      ∧ resp.sources =
          rd.results.map (fun r => SourceItem.document r.document_title r.content r.score)
      ∧ resp.cached = false := by
  have hafter : (if req.use_cache then unified_check_cache cfg now store req co.embedOutcome
      else .ok (none, store)) = Except.ok (none, store) := by
    by_cases hc : req.use_cache
    · rw [if_pos hc]
      exact hmiss hc
    · rw [if_neg hc]
  have hanswer : generate_answer co.synthOutcome ≠ "" := by
    cases hso : co.synthOutcome with
    | ok t =>
      simp only [generate_answer]
      exact hsynth t hso
    | error e =>
      simp only [generate_answer]
      decide
  unfold process_query
  rw [hafter]
  simp only [hrag, hkag, hrag_flag, hkag_flag, htmp_flag, if_true, if_false,
    Bool.false_eq_true, rag_agent_search, kag_analyze_relationships, combine_results,
    List.map_nil, List.append_nil, List.nil_append]
  refine ⟨_, _, rfl, rfl, hanswer, ?_, rfl⟩
  simp

/-- C1 fails as stated: in a run where graph search is enabled and its
collaborator raises while semantic search succeeds, the response is still
returned, but with `strategy_used = ["RAG", "KAG"]`, not the claimed
`["RAG"]`. -/
theorem C1_counterexample :
    (match process_query {} 0 1 []
        ⟨"what is datalive", none, none, false⟩
        ⟨.ok "\x7b\"use_rag\": true, \"use_kag\": true\x7d",
         .ok ⟨[⟨"content a", 0.9, "Doc A"⟩]⟩, .error (), .ok ⟨[]⟩,
         .ok "An answer.", .error ()⟩ with
      | .ok (r, _) => r.strategy_used
      | .error _ => []) = ["RAG", "KAG"]
    ∧ (["RAG", "KAG"] : List String) ≠ ["RAG"] := by
  exact ⟨rfl, by decide⟩

/-- Witness for C1: a concrete run with graph search failing and semantic
search succeeding returns normally with both attempted strategies recorded. -/
theorem C1_failure_isolated_witness :
    (match process_query {} 0 1 []
        ⟨"what is datalive", none, none, false⟩
        ⟨.ok "\x7b\"use_rag\": true, \"use_kag\": true\x7d",
         .ok ⟨[⟨"content a", 0.9, "Doc A"⟩]⟩, .error (), .ok ⟨[]⟩,
         .ok "An answer.", .error ()⟩ with
      | .ok (r, _) => (r.strategy_used, r.cached)
      | .error _ => ([], true)) = (["RAG", "KAG"], false) := by
  obtain ⟨resp, store2, heq, hsu, hans, hsrc, hcached⟩ :=
    C1_failure_isolated {} 0 1 []
      ⟨"what is datalive", none, none, false⟩
      ⟨.ok "\x7b\"use_rag\": true, \"use_kag\": true\x7d",
       .ok ⟨[⟨"content a", 0.9, "Doc A"⟩]⟩, .error (), .ok ⟨[]⟩,
       .ok "An answer.", .error ()⟩
      ⟨[⟨"content a", 0.9, "Doc A"⟩]⟩
      (by intro h; exact absurd h (by decide))
      rfl rfl rfl rfl rfl
      (by intro t ht; cases ht; decide)
  rw [heq]
  show (resp.strategy_used, resp.cached) = (["RAG", "KAG"], false)
  rw [hsu, hcached]

/-! ## Claim C2 -/

/-- C2 fails in the code: store an answer for a query via `update_cache`
(confidence 0.95 > 0.9), then process the identical request with
`use_cache = true`.  The probe finds the fresh record and its confidence
passes the gate, but `_check_cache` reads `cached_result['answer']` at the
top level of the stored dict, while `update_cache` nests the answer under
the `result` key — so instead of the claimed immediate cached response,
`process_query` raises `KeyError: 'answer'` (the outer handler logs and
re-raises). -/
theorem C2_cache_hit_raises :
    process_query {} 10 1
      (update_cache {} 0 [] "capital france"
        ⟨"Paris", [], 0.95, ["RAG"], none⟩ (some ⟨none, none⟩) "factual" (.error ()))
      ⟨"capital france", none, none, true⟩
      ⟨.ok "plan", .ok ⟨[]⟩, .ok ⟨[], []⟩, .ok ⟨[]⟩, .ok "synthesized", .error ()⟩ =
    .error "KeyError: answer" := by
  generalize hst : update_cache {} 0 [] "capital france"
      ⟨"Paris", [], 0.95, ["RAG"], none⟩ (some ⟨none, none⟩) "factual"
      (Except.error ()) = st
  have hg : redisGet 10 st "exact:capital france" =
      some (.cacheVal ⟨"capital france", ⟨"Paris", [], 0.95, ["RAG"], none⟩,
        some ⟨none, none⟩, "factual", 0, 0.95, 3600⟩) := by
    rw [← hst]
    rfl
  have hkeys : generate_cache_keys "capital france" (some ⟨none, none⟩) =
      ["exact:capital france", "normalized:capital france", "semantic:capital france"] := rfl
  have hfresh : is_fresh {} 10 (⟨"capital france", ⟨"Paris", [], 0.95, ["RAG"], none⟩,
      some ⟨none, none⟩, "factual", 0, 0.95, 3600⟩ : CacheData) = true := by decide
  have hprobe : probe_keys {} 10
      (generate_cache_keys "capital france" (some ⟨none, none⟩)) st =
      (some (⟨"capital france", ⟨"Paris", [], 0.95, ["RAG"], none⟩,
        some ⟨none, none⟩, "factual", 0, 0.95, 3600⟩, "exact:capital france"), st) := by
    rw [hkeys]
    exact probe_keys_cons_fresh {} 10 _ _ st _ hg hfresh
  have hcc : check_cache {} 10 st "capital france" (some ⟨none, none⟩)
      (Except.error ()) =
      (some (.keyHit ⟨"capital france", ⟨"Paris", [], 0.95, ["RAG"], none⟩,
        some ⟨none, none⟩, "factual", 0, 0.95, 3600⟩ "exact:capital france"), st) := by
    have h1 : (probe_keys {} 10
        (generate_cache_keys "capital france" (some ⟨none, none⟩)) st).1 =
        some (⟨"capital france", ⟨"Paris", [], 0.95, ["RAG"], none⟩,
          some ⟨none, none⟩, "factual", 0, 0.95, 3600⟩, "exact:capital france") := by
      rw [hprobe]
    have h2 := check_cache_of_probe_some {} 10 st "capital france"
      (some ⟨none, none⟩) (Except.error ()) _ _ h1
    rw [h2, hprobe]
  have hconf : jNumD (jlookup (hitDict (.keyHit
      (⟨"capital france", ⟨"Paris", [], 0.95, ["RAG"], none⟩,
        some ⟨none, none⟩, "factual", 0, 0.95, 3600⟩ : CacheData)
      "exact:capital france")) "confidence") = (0.95 : ℚ) := rfl
  have hans : jlookup (hitDict (.keyHit
      (⟨"capital france", ⟨"Paris", [], 0.95, ["RAG"], none⟩,
        some ⟨none, none⟩, "factual", 0, 0.95, 3600⟩ : CacheData)
      "exact:capital france")) "answer" = none := rfl
  have hucc : unified_check_cache {} 10 st ⟨"capital france", none, none, true⟩
      (Except.error ()) = .error "KeyError: answer" := by
    simp only [unified_check_cache, hcc, hconf]
    rw [if_pos (by norm_num : (0.95 : ℚ) > 9 / 10)]
    rw [hans]
  simp only [process_query, hucc]
  rfl

end DatAlive